import Mathlib

/-!
Verification of the golf-analyze upload/analysis routes.

Shallow embedding of the two variants of `src/app/api/analyze-file/route.ts`
(the legacy handler, modelled as `POSTv1`, and the refactored handler,
modelled as `POST` with its helper functions) and of
`src/app/api/analyze/route.ts` (modelled as `analyzePOST`).

External effects (form parsing, the Files API upload / get / delete calls,
the two generation model calls, filesystem stat/unlink at cleanup time) are
supplied by an `Env` of oracles, and every external call performed by the
handler is recorded in a trace of `Event`s, in program order.  Thrown
JavaScript errors are modelled with `Except`.
-/

namespace GolfAnalyze

/-- Payload of an error thrown by an external SDK or filesystem call
(the message string of the JavaScript Error object). -/
abbrev ExtErr := String

/-- JavaScript truthiness of a possibly-absent string
(absent, or the empty string, are falsy). -/
def truthy : Option String → Bool
  | none => false
  | some s => s.length != 0

/-- Source: `const MAX_FILE_SIZE = 2 * 1024 * 1024 * 1024` (2GB cap). -/
def MAX_FILE_SIZE : Nat := 2 * 1024 * 1024 * 1024

/-- Source: `const GEMINI_BASE64_LIMIT = 20 * 1024 * 1024` (20MB inline ceiling). -/
def GEMINI_BASE64_LIMIT : Nat := 20 * 1024 * 1024

/-- Source: `const PROCESSING_MAX_ATTEMPTS = 10`. -/
def PROCESSING_MAX_ATTEMPTS : Nat := 10

/-- Source: `const PROCESSING_DELAY = 5000` (milliseconds). -/
def PROCESSING_DELAY : Nat := 5000

/-- The `UploadedFile` record returned by the Files API
(`name`, `uri`, `mimeType`, `state`, `error`); every field is optional. -/
structure UploadedFile where
  name : Option String
  uri : Option String
  mimeType : Option String
  state : Option String
  err : Option String
deriving Repr, DecidableEq

/-- The media half of the parts array passed to `generateContent`:
either `inlineData` (mimeType + base64 data) or `fileData` (mimeType + uri). -/
inductive MediaPart where
  | inlineData (mimeType data : String)
  | fileData (mimeType uri : String)
deriving Repr, DecidableEq

/-- One external call performed by a handler, in program order. -/
inductive Event where
  | tempWrite (path : String)
  | filesUpload (path : String)
  | sleep (ms : Nat)
  | filesGet (name : String)
  | generateContent (model : String) (media : MediaPart)
  | filesDelete (name : String)
  | tempStat (path : String)
  | tempUnlink (path : String)
deriving Repr, DecidableEq

/-- Classified errors thrown inside the handlers.  Source throws
`Error` objects with fixed messages; we keep the classification and, for
`processingIncomplete`, the last observed remote state that the message
interpolates.  `sdkError` wraps an error thrown by an external call. -/
inductive Err where
  | configMissingApiKey
  | invalidRequestFormat
  | noFileSelected
  | noFileProvided
  | payloadTooLarge
  | fileTooLarge (size : Nat)
  | extendedFileUnsupported
  | uploadNameMissing
  | nameLost
  | processingIncomplete (state : Option String)
  | mimeOrUriMissing
  | sdkError (e : ExtErr)
deriving Repr, DecidableEq

/-- A multipart form file: `formData.get('file')` result, when present. -/
structure FormFile where
  name : String
  size : Nat
  type : String
deriving Repr, DecidableEq

/-- The JSON body accepted by the refactored handler
(`method`, `fileName`, `fileSize`, `fileType`, `base64Data`). -/
structure JsonBody where
  method : String
  fileName : String
  fileSize : Nat
  fileType : String
  base64Data : Option String
deriving Repr, DecidableEq

/-- An incoming request to the analyze-file route: either a JSON body
(content-type includes application/json) or a multipart form whose
`file` field may be absent. -/
inductive Request where
  | json (body : JsonBody)
  | form (file : Option FormFile)
deriving Repr, DecidableEq

/-- The value produced by `validateAndExtractFile`: a real `File`, or the
duck-typed `ExtendedFile` built from a JSON body. -/
inductive FileLike where
  | real (f : FormFile)
  | extended (name : String) (size : Nat) (type : String) (base64Data : Option String)
deriving Repr, DecidableEq

def FileLike.name : FileLike → String
  | .real f => f.name
  | .extended n _ _ _ => n

def FileLike.size : FileLike → Nat
  | .real f => f.size
  | .extended _ s _ _ => s

def FileLike.type : FileLike → String
  | .real f => f.type
  | .extended _ _ t _ => t

def FileLike.base64Data : FileLike → Option String
  | .real _ => none
  | .extended _ _ _ b => b

/-- Oracles for every external effect the handlers perform.
`getResult i` is the outcome of the i-th `files.get` poll (0-based),
`tempContentB64` the base64 text of the temp file read back by
`processWithBase64`, `tempExists` whether `fs.stat` succeeds at cleanup
time, and `fileId` the `crypto.randomUUID()` value. -/
structure Env where
  apiKey : Option String
  request : Request
  tempDir : String
  fileId : String
  tempContentB64 : String
  uploadResult : Except ExtErr UploadedFile
  getResult : Nat → Except ExtErr UploadedFile
  flashResult : MediaPart → Except ExtErr String
  proResult : MediaPart → Except ExtErr String
  filesDeleteResult : Except ExtErr Unit
  tempExists : Bool
  unlinkResult : Except ExtErr Unit

/-- `path.join(tempDir, fileId + '_' + file.name)`. -/
def mkTempPath (tempDir fileId name : String) : String :=
  tempDir ++ "/" ++ fileId ++ "_" ++ name

/-- `fileType || 'video/quicktime'`. -/
def orDefaultMime (t : String) : String :=
  if t.length = 0 then "video/quicktime" else t

/-- HTTP response body fields used by the analyze-file handlers.
`error` keeps the classified error that the source renders into the
message string; `success` is `none` when the source body omits the field. -/
structure ResponseBody where
  success : Option Bool
  analysis : Option String
  error : Option Err
  fileInfoName : Option String
  fileInfoMethod : Option String
deriving Repr, DecidableEq

structure Response where
  status : Nat
  body : ResponseBody
deriving Repr, DecidableEq

/-- `validateAndExtractFile` (refactored handler): JSON bodies must carry
`method: 'base64'` and respect the 2GB cap; form bodies must carry a file
under the 2GB cap.  Errors are thrown, not turned into responses. -/
def validateAndExtractFile : Request → Except Err FileLike
  | .json b =>
    if b.method ≠ "base64" then .error .invalidRequestFormat
    else if b.fileSize > MAX_FILE_SIZE then .error (.fileTooLarge b.fileSize)
    else .ok (.extended b.fileName b.fileSize b.fileType b.base64Data)
  | .form none => .error .noFileSelected
  | .form (some f) =>
    if f.size > MAX_FILE_SIZE then .error (.fileTooLarge f.size)
    else .ok (.real f)

/-- `saveTemporaryFile`: writes the payload under a random-id path for a
real `File`, throws for the duck-typed `ExtendedFile`. -/
def saveTemporaryFile (file : FileLike) (tempDir fileId : String) :
    Except Err String × List Event :=
  let p := mkTempPath tempDir fileId file.name
  match file with
  | .real _ => (.ok p, [.tempWrite p])
  | .extended _ _ _ _ => (.error .extendedFileUnsupported, [])

/-- `executeGeminiAnalysis`: try the flash model; on any thrown error wait
2000ms and try the pro model once; a pro failure is rethrown.  Both
variants of the route share this exact structure. -/
def executeGeminiAnalysis (flash pro : MediaPart → Except ExtErr String)
    (media : MediaPart) : Except Err String × List Event :=
  match flash media with
  | .ok t => (.ok t, [.generateContent "gemini-1.5-flash" media])
  | .error _ =>
    match pro media with
    | .ok t =>
      (.ok t,
        [.generateContent "gemini-1.5-flash" media, .sleep 2000,
          .generateContent "gemini-1.5-pro" media])
    | .error pe =>
      (.error (.sdkError pe),
        [.generateContent "gemini-1.5-flash" media, .sleep 2000,
          .generateContent "gemini-1.5-pro" media])

/-- The `while (state === 'PROCESSING' && attempts < max)` poll loop of
`waitForFileProcessing`.  `attempts` counts up exactly as in the source;
`fuel` is `PROCESSING_MAX_ATTEMPTS - attempts`, so `fuel = 0` is exactly
the exit `attempts < PROCESSING_MAX_ATTEMPTS` failing.  Each iteration
sleeps 5000ms, rechecks the name, polls `files.get`, and rebinds the
current file to the poll result. -/
def waitLoopAux (get : Nat → Except ExtErr UploadedFile) :
    UploadedFile → Nat → Nat → Except Err UploadedFile × List Event
  | current, _, 0 => (.ok current, [])
  | current, attempts, fuel + 1 =>
    if current.state = some "PROCESSING" then
      if truthy current.name then
        match get attempts with
        | .error e =>
          (.error (.sdkError e),
            [.sleep PROCESSING_DELAY, .filesGet (current.name.getD "")])
        | .ok next =>
          let rest := waitLoopAux get next (attempts + 1) fuel
          (rest.1, .sleep PROCESSING_DELAY :: .filesGet (current.name.getD "") :: rest.2)
      else (.error .nameLost, [.sleep PROCESSING_DELAY])
    else (.ok current, [])

/-- `waitForFileProcessing`: run the poll loop from attempt 0, then throw
`processingIncomplete` carrying the last observed state unless it is
ACTIVE.  Returns the final observed file (the source rebinds / merges the
uploaded file with each poll result). -/
def waitForFileProcessing (get : Nat → Except ExtErr UploadedFile)
    (uploadedFile : UploadedFile) : Except Err UploadedFile × List Event :=
  let out := waitLoopAux get uploadedFile 0 PROCESSING_MAX_ATTEMPTS
  match out.1 with
  | .error e => (.error e, out.2)
  | .ok current =>
    if current.state = some "ACTIVE" then (.ok current, out.2)
    else (.error (.processingIncomplete current.state), out.2)

/-- `uploadFileWithFilesAPI`: push the temp file to the Files API, require
a name on the result, then wait for processing; returns the final file. -/
def uploadFileWithFilesAPI (uploadResult : Except ExtErr UploadedFile)
    (get : Nat → Except ExtErr UploadedFile) (tempFilePath : String) :
    Except Err UploadedFile × List Event :=
  match uploadResult with
  | .error e => (.error (.sdkError e), [.filesUpload tempFilePath])
  | .ok uploadedFile =>
    if truthy uploadedFile.name then
      let w := waitForFileProcessing get uploadedFile
      (w.1, .filesUpload tempFilePath :: w.2)
    else (.error .uploadNameMissing, [.filesUpload tempFilePath])

/-- `processWithFilesAPI`: require mimeType and uri on the processed file,
then invoke the generation call with a `fileData` reference. -/
def processWithFilesAPI (flash pro : MediaPart → Except ExtErr String)
    (uploadedFile : UploadedFile) : Except Err String × List Event :=
  if truthy uploadedFile.mimeType ∧ truthy uploadedFile.uri then
    executeGeminiAnalysis flash pro
      (.fileData (uploadedFile.mimeType.getD "") (uploadedFile.uri.getD ""))
  else (.error .mimeOrUriMissing, [])

/-- `processWithBase64` (server-side encode): read the temp file back,
base64 it, and invoke the generation call inline. -/
def processWithBase64 (flash pro : MediaPart → Except ExtErr String)
    (tempContentB64 : String) (fileType : String) : Except Err String × List Event :=
  executeGeminiAnalysis flash pro (.inlineData (orDefaultMime fileType) tempContentB64)

/-- `processWithPreEncodedBase64`: invoke the generation call inline with
the client-supplied base64 payload. -/
def processWithPreEncodedBase64 (flash pro : MediaPart → Except ExtErr String)
    (base64Data : String) (fileType : String) : Except Err String × List Event :=
  executeGeminiAnalysis flash pro (.inlineData (orDefaultMime fileType) base64Data)

/-- `cleanup`, local half: `if (tempFilePath && await fs.stat(..).catch(() => false))
await fs.unlink(..)`.  The stat is attempted whenever the path is truthy;
the unlink only when stat reports the file present; an unlink error is
swallowed by the surrounding catch. -/
def cleanupLocal (tempFilePath : String) (tempExists : Bool) : List Event :=
  if tempFilePath.length = 0 then []
  else if tempExists then [.tempStat tempFilePath, .tempUnlink tempFilePath]
  else [.tempStat tempFilePath]

/-- `cleanup`: one try/catch containing, in sequence, the guarded remote
`files.delete` and the guarded local unlink.  A thrown remote delete is
caught by that single catch, so the local step is then never reached.
All cleanup errors are logged only. -/
def cleanup (tempFilePath : String) (uploadedFile : Option UploadedFile)
    (deleteResult : Except ExtErr Unit) (tempExists : Bool) : List Event :=
  match uploadedFile with
  | some u =>
    if truthy u.name then
      match deleteResult with
      | .error _ => [.filesDelete (u.name.getD "")]
      | .ok _ => .filesDelete (u.name.getD "") :: cleanupLocal tempFilePath tempExists
    else cleanupLocal tempFilePath tempExists
  | none => cleanupLocal tempFilePath tempExists

/-- Routing condition of both handlers (the source logs it as
`isBase64Route`): inline strategy exactly when the size is at most the
20MB inline ceiling. -/
def isBase64Route (fileSize : Nat) : Bool :=
  fileSize ≤ GEMINI_BASE64_LIMIT

/-- Outcome of the try-block of the refactored `POST`, together with the
values of `tempFilePath` and `uploadedFileForDeletion` as they stand when
the finally-block runs, and the external calls made so far. -/
structure MainResult where
  result : Except Err (String × FileLike)
  tempFilePath : String
  uploadedFileForDeletion : Option UploadedFile
  events : List Event
deriving Repr

/-- Try-block of the refactored `POST`: validate, route on size, and run
the inline (pre-encoded or server-side) or staged pipeline.  Note that
`uploadedFileForDeletion` is assigned only after `uploadFileWithFilesAPI`
returns, i.e. only once upload AND polling both succeeded. -/
def POSTmain (env : Env) : MainResult :=
  match validateAndExtractFile env.request with
  | .error e => ⟨.error e, "", none, []⟩
  | .ok file =>
    if isBase64Route file.size then
      if truthy file.base64Data then
        let r := processWithPreEncodedBase64 env.flashResult env.proResult
          (file.base64Data.getD "") file.type
        ⟨r.1.map (fun t => (t, file)), "", none, r.2⟩
      else
        match saveTemporaryFile file env.tempDir env.fileId with
        | (.error e, evs) => ⟨.error e, "", none, evs⟩
        | (.ok tempFilePath, evs) =>
          let r := processWithBase64 env.flashResult env.proResult
            env.tempContentB64 file.type
          ⟨r.1.map (fun t => (t, file)), tempFilePath, none, evs ++ r.2⟩
    else
      match saveTemporaryFile file env.tempDir env.fileId with
      | (.error e, evs) => ⟨.error e, "", none, evs⟩
      | (.ok tempFilePath, evs) =>
        match uploadFileWithFilesAPI env.uploadResult env.getResult tempFilePath with
        | (.error e, evs2) => ⟨.error e, tempFilePath, none, evs ++ evs2⟩
        | (.ok uploadedFile, evs2) =>
          let r := processWithFilesAPI env.flashResult env.proResult uploadedFile
          ⟨r.1.map (fun t => (t, file)), tempFilePath, some uploadedFile, evs ++ evs2 ++ r.2⟩

/-- The refactored `POST` handler: missing credential short-circuits to a
500 JSON body; otherwise the try-block result is shaped into a 200
success body or a 500 `success: false` error body, and the finally-block
cleanup always runs and cannot change the response. -/
def POST (env : Env) : Response × List Event :=
  if ¬ truthy env.apiKey then
    (⟨500, ⟨none, none, some .configMissingApiKey, none, none⟩⟩, [])
  else
    let m := POSTmain env
    let resp : Response :=
      match m.result with
      | .ok (analysisResult, file) =>
        ⟨200, ⟨some true, some analysisResult, none, some file.name,
          some (if isBase64Route file.size then "Base64" else "Files API")⟩⟩
      | .error e => ⟨500, ⟨some false, none, some e, none, none⟩⟩
    (resp, m.events ++
      cleanup m.tempFilePath m.uploadedFileForDeletion env.filesDeleteResult env.tempExists)

/-- Outcome of the try-block of the legacy `POST` handler.  Early
validation failures are returned responses (`Except.ok` a 400/413), not
thrown errors; `uploadedFileForDeletion` is assigned right after the
upload call, before the name check and the polling. -/
structure V1Main where
  result : Except Err Response
  tempFilePath : String
  uploadedFileForDeletion : Option UploadedFile
  events : List Event
deriving Repr

/-- A legacy 200 success body: only `success: true` and `analysis`. -/
def v1Success (t : String) : Response :=
  ⟨200, ⟨some true, some t, none, none, none⟩⟩

/-- Try-block of the legacy `POST` (first variant of the route): direct
400/413 responses for a missing file or an over-cap size, one temp write,
then the same size-based routing; the staged branch records the uploaded
file for deletion immediately after the upload call. -/
def POSTv1main (env : Env) (file? : Option FormFile) : V1Main :=
  match file? with
  | none => ⟨.ok ⟨400, ⟨none, none, some .noFileProvided, none, none⟩⟩, "", none, []⟩
  | some file =>
    if file.size > MAX_FILE_SIZE then
      ⟨.ok ⟨413, ⟨none, none, some .payloadTooLarge, none, none⟩⟩, "", none, []⟩
    else
      let tempFilePath := mkTempPath env.tempDir env.fileId file.name
      if isBase64Route file.size then
        let r := executeGeminiAnalysis env.flashResult env.proResult
          (.inlineData (orDefaultMime file.type) env.tempContentB64)
        ⟨r.1.map v1Success, tempFilePath, none, .tempWrite tempFilePath :: r.2⟩
      else
        match env.uploadResult with
        | .error e =>
          ⟨.error (.sdkError e), tempFilePath, none,
            [.tempWrite tempFilePath, .filesUpload tempFilePath]⟩
        | .ok up =>
          if truthy up.name then
            match waitForFileProcessing env.getResult up with
            | (.error e, evs) =>
              ⟨.error e, tempFilePath, some up,
                .tempWrite tempFilePath :: .filesUpload tempFilePath :: evs⟩
            | (.ok fin, evs) =>
              if truthy fin.mimeType ∧ truthy fin.uri then
                let r := executeGeminiAnalysis env.flashResult env.proResult
                  (.fileData (fin.mimeType.getD "") (fin.uri.getD ""))
                ⟨r.1.map v1Success, tempFilePath, some up,
                  .tempWrite tempFilePath :: .filesUpload tempFilePath :: (evs ++ r.2)⟩
              else
                ⟨.error .mimeOrUriMissing, tempFilePath, some up,
                  .tempWrite tempFilePath :: .filesUpload tempFilePath :: evs⟩
          else
            ⟨.error .uploadNameMissing, tempFilePath, some up,
              [.tempWrite tempFilePath, .filesUpload tempFilePath]⟩

/-- The legacy `POST` handler (first variant of the route).  A missing
credential is thrown OUTSIDE the try-block and therefore escapes the
handler: the overall result is `Except.error` and no response body is
produced by the handler.  `file?` is the `formData.get('file')` value. -/
def POSTv1 (env : Env) (file? : Option FormFile) : Except Err Response × List Event :=
  if ¬ truthy env.apiKey then (.error .configMissingApiKey, [])
  else
    let m := POSTv1main env file?
    let resp : Response :=
      match m.result with
      | .ok r => r
      | .error e => ⟨500, ⟨none, none, some e, none, none⟩⟩
    (.ok resp, m.events ++
      cleanup m.tempFilePath m.uploadedFileForDeletion env.filesDeleteResult env.tempExists)

/-- Error classification of the `/api/analyze` route. -/
inductive AnalyzeErr where
  | missingApiKey
  | missingVideo
  | tooLargeEstimated
  | tooLargeBase64
  | upstreamTooLarge
  | upstreamTimeout
  | genericFailure (e : ExtErr)
deriving Repr, DecidableEq

/-- Response of the `/api/analyze` route (status plus the fields of its
JSON body that the claims mention). -/
structure AnalyzeResponse where
  status : Nat
  success : Option Bool
  analysis : Option String
  errorKind : Option AnalyzeErr
deriving Repr, DecidableEq

/-- Oracles for the `/api/analyze` route: credential, the parsed
`videoBase64` field, and the single flash-model generation call. -/
structure AnalyzeEnv where
  apiKey : Option String
  videoBase64 : Option String
  modelResult : String → Except ExtErr String

/-- `error.message.includes(needle)` for the upstream error classifier. -/
def msgIncludes (msg needle : String) : Bool :=
  (msg.splitOn needle).length ≥ 2

/-- Source: `const maxSize = 30 * 1024 * 1024`. -/
def ANALYZE_MAX_SIZE : Nat := 30 * 1024 * 1024

/-- Source: `const maxBase64Size = 40 * 1024 * 1024`. -/
def ANALYZE_MAX_BASE64_SIZE : Nat := 40 * 1024 * 1024

/-- `(videoBase64.length * 3) / 4 > maxSize`, cleared of the exact float
division by 4 (len*3 and /4 are exact in doubles for any realistic
length, so the comparison equals `3 * len > 4 * maxSize`). -/
def estimatedSizeExceeds (len : Nat) : Bool :=
  3 * len > 4 * ANALYZE_MAX_SIZE

/-- The `/api/analyze` POST handler: credential check, `videoBase64`
presence check, the two 413 size checks, then a single flash-model call
whose thrown errors are classified into 413/504/500 by message text.
The route has no temp-file write, no Files API call, and no fallback
model tier. -/
def analyzePOST (env : AnalyzeEnv) : AnalyzeResponse × List Event :=
  if ¬ truthy env.apiKey then (⟨500, none, none, some .missingApiKey⟩, [])
  else if ¬ truthy env.videoBase64 then (⟨400, none, none, some .missingVideo⟩, [])
  else
    let v := env.videoBase64.getD ""
    if estimatedSizeExceeds v.length then (⟨413, none, none, some .tooLargeEstimated⟩, [])
    else if v.length > ANALYZE_MAX_BASE64_SIZE then (⟨413, none, none, some .tooLargeBase64⟩, [])
    else
      let ev : Event := .generateContent "gemini-1.5-flash" (.inlineData "video/mp4" v)
      match env.modelResult v with
      | .ok t => (⟨200, some true, some t, none⟩, [ev])
      | .error e =>
        if msgIncludes e "413" || msgIncludes e "too large" then
          (⟨413, none, none, some .upstreamTooLarge⟩, [ev])
        else if msgIncludes e "timeout" || msgIncludes e "504" then
          (⟨504, none, none, some .upstreamTimeout⟩, [ev])
        else (⟨500, none, none, some (.genericFailure e)⟩, [ev])

/-! Event discriminators used by the theorems. -/

def Event.isTempWrite : Event → Bool
  | .tempWrite _ => true
  | _ => false

def Event.isUpload : Event → Bool
  | .filesUpload _ => true
  | _ => false

def Event.isFilesGet : Event → Bool
  | .filesGet _ => true
  | _ => false

def Event.isSleep5 : Event → Bool
  | .sleep ms => ms == PROCESSING_DELAY
  | _ => false

def Event.isGenerate : Event → Bool
  | .generateContent _ _ => true
  | _ => false

def Event.isStagedGenerate : Event → Bool
  | .generateContent _ (.fileData _ _) => true
  | _ => false

def Event.isFilesDelete : Event → Bool
  | .filesDelete _ => true
  | _ => false

def Event.isTempStat : Event → Bool
  | .tempStat _ => true
  | _ => false

def Event.isTempUnlink : Event → Bool
  | .tempUnlink _ => true
  | _ => false

/-! Concrete inputs used by witnesses and counterexamples. -/

/-- A staged file already ACTIVE. -/
def activeFile : UploadedFile :=
  ⟨some "files/x", some "https://u", some "video/mp4", some "ACTIVE", none⟩

/-- A staged file still PROCESSING. -/
def processingFile : UploadedFile :=
  ⟨some "files/x", some "https://u", some "video/mp4", some "PROCESSING", none⟩

/-- A status oracle that always reports ACTIVE. -/
def getActive : Nat → Except ExtErr UploadedFile := fun _ => .ok activeFile

/-- A status oracle that always reports PROCESSING. -/
def getProcessing : Nat → Except ExtErr UploadedFile := fun _ => .ok processingFile

/-- A 21MB form upload (over the 20MB inline ceiling, under the 2GB cap). -/
def bigFormFile : FormFile := ⟨"swing.mov", 21 * 1024 * 1024, "video/mp4"⟩

/-- A 10MB form upload (inline route). -/
def smallFormFile : FormFile := ⟨"swing.mov", 10 * 1024 * 1024, "video/mp4"⟩

/-- A baseline environment: valid key, small form upload, every external
call succeeding. -/
def baseEnv : Env where
  apiKey := some "key"
  request := .form (some smallFormFile)
  tempDir := "/tmp"
  fileId := "id"
  tempContentB64 := "QUFB"
  uploadResult := .ok processingFile
  getResult := getActive
  flashResult := fun _ => .ok "flash answer"
  proResult := fun _ => .ok "pro answer"
  filesDeleteResult := .ok ()
  tempExists := true
  unlinkResult := .ok ()

/-- Staged upload whose remote processing never leaves PROCESSING: the
poll budget is exhausted. -/
def envPollTimeout : Env :=
  { baseEnv with request := .form (some bigFormFile), getResult := getProcessing }

/-- Staged upload that becomes ACTIVE on the first poll and succeeds. -/
def envStagedOk : Env :=
  { baseEnv with request := .form (some bigFormFile) }

/-- Staged success whose remote cleanup delete throws. -/
def envStagedDeleteFails : Env :=
  { baseEnv with
      request := .form (some bigFormFile)
      filesDeleteResult := .error "delete failed" }

/-- A request with no form file. -/
def envNoFile : Env := { baseEnv with request := .form none }

/-- A 2.5GB form upload (over the 2GB cap). -/
def envOverCap : Env :=
  { baseEnv with
    request := .form (some ⟨"swing.mov", 2684354560, "video/mp4"⟩) }

/-- An environment with the credential variable unset. -/
def envNoKey : Env := { baseEnv with apiKey := none }

/-- A 10MB inline request arriving as a pre-encoded JSON body. -/
def envJsonInline : Env :=
  { baseEnv with
      request := .json ⟨"base64", "swing.mov", 10 * 1024 * 1024, "video/mp4",
        some "QUFB"⟩ }

/-- A base64 string one character over the 40MB base64 cap. -/
def hugeBase64 : String := String.mk (List.replicate 41943041 'a')

/-- A baseline environment for the analyze route. -/
def analyzeEnvOk : AnalyzeEnv :=
  ⟨some "key", some "QUFB", fun _ => .ok "advice"⟩

/-- The analyze route fed an oversized base64 payload. -/
def analyzeEnvHuge : AnalyzeEnv :=
  ⟨some "key", some hugeBase64, fun _ => .ok "advice"⟩

/-! Helper lemmas about the traces each component can emit. -/

/-- The poll loop emits only 5s sleeps and files.get calls. -/
theorem waitLoopAux_events (get : Nat → Except ExtErr UploadedFile) :
    ∀ (fuel attempts : Nat) (c : UploadedFile),
      ∀ e ∈ (waitLoopAux get c attempts fuel).2,
        e = Event.sleep PROCESSING_DELAY ∨ ∃ s, e = Event.filesGet s := by
  intro fuel
  induction fuel with
  | zero => intro attempts c e he; simp [waitLoopAux] at he
  | succ n ih =>
    intro attempts c e he
    simp only [waitLoopAux] at he
    split at he
    · split at he
      · split at he
        · simp only [List.mem_cons, List.not_mem_nil, or_false] at he
          rcases he with h | h
          · exact Or.inl h
          · exact Or.inr ⟨_, h⟩
        · simp only [List.mem_cons] at he
          rcases he with h | h | h
          · exact Or.inl h
          · exact Or.inr ⟨_, h⟩
          · exact ih (attempts + 1) _ e h
      · simp only [List.mem_singleton] at he
        exact Or.inl he
    · simp at he

/-- waitForFileProcessing emits only 5s sleeps and files.get calls. -/
theorem waitForFileProcessing_events (get : Nat → Except ExtErr UploadedFile)
    (f : UploadedFile) :
    ∀ e ∈ (waitForFileProcessing get f).2,
      e = Event.sleep PROCESSING_DELAY ∨ ∃ s, e = Event.filesGet s := by
  intro e he
  have h := waitLoopAux_events get PROCESSING_MAX_ATTEMPTS 0 f
  simp only [waitForFileProcessing] at he
  split at he
  · exact h e he
  · split at he
    · exact h e he
    · exact h e he

/-- A successful waitForFileProcessing returns a file in state ACTIVE. -/
theorem waitForFileProcessing_ok_active (get : Nat → Except ExtErr UploadedFile)
    (f fin : UploadedFile) (h : (waitForFileProcessing get f).1 = .ok fin) :
    fin.state = some "ACTIVE" := by
  simp only [waitForFileProcessing] at h
  split at h
  · simp at h
  · rename_i current heq
    split at h
    · rename_i hc
      simp only [Except.ok.injEq] at h
      rw [← h]; exact hc
    · simp at h

/-- executeGeminiAnalysis emits only generation calls on its own media
and the fixed 2s backoff sleep. -/
theorem executeGeminiAnalysis_events (flash pro : MediaPart → Except ExtErr String)
    (media : MediaPart) :
    ∀ e ∈ (executeGeminiAnalysis flash pro media).2,
      (∃ tier, e = Event.generateContent tier media) ∨ e = Event.sleep 2000 := by
  intro e he
  unfold executeGeminiAnalysis at he
  cases hf : flash media with
  | ok t => rw [hf] at he; simp at he; exact Or.inl ⟨_, he⟩
  | error err =>
    rw [hf] at he
    cases hp : pro media with
    | ok t =>
      rw [hp] at he; simp at he
      rcases he with h | h | h
      · exact Or.inl ⟨_, h⟩
      · exact Or.inr h
      · exact Or.inl ⟨_, h⟩
    | error pe =>
      rw [hp] at he; simp at he
      rcases he with h | h | h
      · exact Or.inl ⟨_, h⟩
      · exact Or.inr h
      · exact Or.inl ⟨_, h⟩

/-- The cleanup coordinator emits only delete-side events. -/
theorem cleanup_events (tempFilePath : String) (u? : Option UploadedFile)
    (d : Except ExtErr Unit) (tex : Bool) :
    ∀ e ∈ cleanup tempFilePath u? d tex,
      (∃ s, e = Event.filesDelete s) ∨ (∃ s, e = Event.tempStat s) ∨
        (∃ s, e = Event.tempUnlink s) := by
  have hloc : ∀ e ∈ cleanupLocal tempFilePath tex,
      (∃ s, e = Event.filesDelete s) ∨ (∃ s, e = Event.tempStat s) ∨
        (∃ s, e = Event.tempUnlink s) := by
    intro e he
    unfold cleanupLocal at he
    by_cases h0 : tempFilePath.length = 0
    · simp [h0] at he
    · by_cases ht : tex = true
      · simp [h0, ht] at he
        rcases he with h | h
        · exact Or.inr (Or.inl ⟨_, h⟩)
        · exact Or.inr (Or.inr ⟨_, h⟩)
      · simp [h0, ht] at he
        exact Or.inr (Or.inl ⟨_, he⟩)
  intro e he
  unfold cleanup at he
  cases u? with
  | none => exact hloc e he
  | some u =>
    by_cases hn : truthy u.name
    · simp only [hn, if_true] at he
      cases d with
      | error err => simp at he; exact Or.inl ⟨_, he⟩
      | ok _ =>
        simp only [List.mem_cons] at he
        rcases he with h | h
        · exact Or.inl ⟨_, h⟩
        · exact hloc e h
    · simp only [hn, if_false] at he
      exact hloc e he

/-- countP vanishes on a trace all of whose events fail the predicate. -/
theorem countP_zero_of_events {l : List Event} {P : Event → Bool}
    (h : ∀ e ∈ l, P e = false) : l.countP P = 0 := by
  rw [List.countP_eq_zero]
  intro a ha
  simp [h a ha]

/-- Generic zero-count for the waitForFileProcessing trace. -/
theorem waitForFileProcessing_countP_zero (get : Nat → Except ExtErr UploadedFile)
    (f : UploadedFile) (P : Event → Bool)
    (h1 : P (Event.sleep PROCESSING_DELAY) = false)
    (h2 : ∀ s, P (Event.filesGet s) = false) :
    (waitForFileProcessing get f).2.countP P = 0 := by
  apply countP_zero_of_events
  intro e he
  rcases waitForFileProcessing_events get f e he with h | ⟨s, h⟩
  · rw [h]; exact h1
  · rw [h]; exact h2 s

/-- Generic zero-count for the executeGeminiAnalysis trace. -/
theorem executeGeminiAnalysis_countP_zero (flash pro : MediaPart → Except ExtErr String)
    (media : MediaPart) (P : Event → Bool)
    (h1 : ∀ tier, P (Event.generateContent tier media) = false)
    (h2 : P (Event.sleep 2000) = false) :
    (executeGeminiAnalysis flash pro media).2.countP P = 0 := by
  apply countP_zero_of_events
  intro e he
  rcases executeGeminiAnalysis_events flash pro media e he with ⟨tier, h⟩ | h
  · rw [h]; exact h1 tier
  · rw [h]; exact h2

/-- Generic zero-count for the processWithFilesAPI trace. -/
theorem processWithFilesAPI_countP_zero (flash pro : MediaPart → Except ExtErr String)
    (u : UploadedFile) (P : Event → Bool)
    (h1 : ∀ tier media, P (Event.generateContent tier media) = false)
    (h2 : P (Event.sleep 2000) = false) :
    (processWithFilesAPI flash pro u).2.countP P = 0 := by
  unfold processWithFilesAPI
  split
  · exact executeGeminiAnalysis_countP_zero _ _ _ P (fun tier => h1 tier _) h2
  · rfl

/-- Generic zero-count for the cleanup trace. -/
theorem cleanup_countP_zero (tempFilePath : String) (u? : Option UploadedFile)
    (d : Except ExtErr Unit) (tex : Bool) (P : Event → Bool)
    (h1 : ∀ s, P (Event.filesDelete s) = false)
    (h2 : ∀ s, P (Event.tempStat s) = false)
    (h3 : ∀ s, P (Event.tempUnlink s) = false) :
    (cleanup tempFilePath u? d tex).countP P = 0 := by
  apply countP_zero_of_events
  intro e he
  rcases cleanup_events tempFilePath u? d tex e he with ⟨s, h⟩ | ⟨s, h⟩ | ⟨s, h⟩ <;>
    rw [h]
  · exact h1 s
  · exact h2 s
  · exact h3 s

/-- Every event of the uploadFileWithFilesAPI trace is the upload itself
or a polling event, and the upload is attempted exactly once. -/
theorem uploadFileWithFilesAPI_events (ur : Except ExtErr UploadedFile)
    (get : Nat → Except ExtErr UploadedFile) (p : String) :
    (∀ e ∈ (uploadFileWithFilesAPI ur get p).2,
      e = Event.filesUpload p ∨ e = Event.sleep PROCESSING_DELAY ∨
        ∃ s, e = Event.filesGet s) ∧
    (uploadFileWithFilesAPI ur get p).2.countP Event.isUpload = 1 := by
  unfold uploadFileWithFilesAPI
  cases ur with
  | error e => simp [Event.isUpload]
  | ok up =>
    by_cases hn : truthy up.name
    · simp only [hn, if_true]
      constructor
      · intro e he
        simp only [List.mem_cons] at he
        rcases he with h | h
        · exact Or.inl h
        · exact Or.inr (waitForFileProcessing_events get up e h)
      · simp only [List.countP_cons, Event.isUpload]
        rw [waitForFileProcessing_countP_zero get up Event.isUpload rfl (fun s => rfl)]
        simp
    · simp [hn, Event.isUpload]

/-- Claim C2: in `executeGeminiAnalysis`, a flash success returns its text
after exactly one generation call (the pro tier is never invoked); a flash
failure is followed by exactly one pro call after a fixed 2000ms backoff,
whose success is returned and whose failure propagates; in every case at
most two generation calls occur and there is no third attempt. -/
theorem C2_generation_fallback (flash pro : MediaPart → Except ExtErr String)
    (media : MediaPart) :
    (∀ t, flash media = .ok t →
      executeGeminiAnalysis flash pro media =
        (.ok t, [.generateContent "gemini-1.5-flash" media])) ∧
    (∀ e, flash media = .error e →
      (executeGeminiAnalysis flash pro media).2 =
        [.generateContent "gemini-1.5-flash" media, .sleep 2000,
          .generateContent "gemini-1.5-pro" media] ∧
      (∀ t, pro media = .ok t → (executeGeminiAnalysis flash pro media).1 = .ok t) ∧
      (∀ pe, pro media = .error pe →
        (executeGeminiAnalysis flash pro media).1 = .error (.sdkError pe))) := by
  constructor
  · intro t ht
    simp [executeGeminiAnalysis, ht]
  · intro e he
    refine ⟨?_, ?_, ?_⟩
    · cases hp : pro media <;> simp [executeGeminiAnalysis, he, hp]
    · intro t hp
      simp [executeGeminiAnalysis, he, hp]
    · intro pe hp
      simp [executeGeminiAnalysis, he, hp]

/-- Witness for C2 at a concrete input: the flash tier fails, the pro tier
answers, and the handler performs flash call, 2s backoff, pro call. -/
theorem C2_generation_fallback_witness :
    (executeGeminiAnalysis (fun _ => .error "rate limit")
        (fun _ => .ok "pro answer") (.inlineData "video/mp4" "QUFB")).2 =
      [.generateContent "gemini-1.5-flash" (.inlineData "video/mp4" "QUFB"),
        .sleep 2000,
        .generateContent "gemini-1.5-pro" (.inlineData "video/mp4" "QUFB")] ∧
    (executeGeminiAnalysis (fun _ => .error "rate limit")
        (fun _ => .ok "pro answer") (.inlineData "video/mp4" "QUFB")).1 =
      .ok "pro answer" := by
  have h := (C2_generation_fallback (fun _ => .error "rate limit")
    (fun _ => .ok "pro answer") (.inlineData "video/mp4" "QUFB")).2 "rate limit" rfl
  exact ⟨h.1, h.2.1 "pro answer" rfl⟩

/-- Step equation of the poll loop when the current file is PROCESSING,
has a truthy name and the poll succeeds. -/
theorem waitLoopAux_step (get : Nat → Except ExtErr UploadedFile)
    (c next : UploadedFile) (attempts n : Nat)
    (hs : c.state = some "PROCESSING") (hc : truthy c.name = true)
    (hg : get attempts = .ok next) :
    waitLoopAux get c attempts (n + 1) =
      ((waitLoopAux get next (attempts + 1) n).1,
        .sleep PROCESSING_DELAY :: .filesGet (c.name.getD "") ::
          (waitLoopAux get next (attempts + 1) n).2) := by
  simp [waitLoopAux, hs, hc, hg]

/-- The poll loop stops immediately on a non-PROCESSING state. -/
theorem waitLoopAux_stop (get : Nat → Except ExtErr UploadedFile)
    (c : UploadedFile) (attempts fuel : Nat)
    (hs : ¬ c.state = some "PROCESSING") :
    waitLoopAux get c attempts fuel = (.ok c, []) := by
  cases fuel with
  | zero => rfl
  | succ n => simp [waitLoopAux, hs]

/-- Characterization of the poll loop under successful polling: it never
throws, performs a number of polls bounded by the fuel, pairs every poll
with exactly one 5s sleep, returns the last observed file, and uses all
its fuel whenever that file is still PROCESSING. -/
theorem waitLoopAux_spec (get : Nat → Except ExtErr UploadedFile)
    (fs : Nat → UploadedFile)
    (hget : ∀ i, get i = .ok (fs i))
    (hnames : ∀ i, truthy (fs i).name = true) :
    ∀ (fuel attempts : Nat) (c : UploadedFile), truthy c.name = true →
      ∃ fin,
        (waitLoopAux get c attempts fuel).1 = .ok fin ∧
        (waitLoopAux get c attempts fuel).2.countP Event.isFilesGet ≤ fuel ∧
        (waitLoopAux get c attempts fuel).2.countP Event.isSleep5 =
          (waitLoopAux get c attempts fuel).2.countP Event.isFilesGet ∧
        fin = (if (waitLoopAux get c attempts fuel).2.countP Event.isFilesGet = 0
               then c
               else fs (attempts +
                 (waitLoopAux get c attempts fuel).2.countP Event.isFilesGet - 1)) ∧
        (fin.state = some "PROCESSING" →
          (waitLoopAux get c attempts fuel).2.countP Event.isFilesGet = fuel) := by
  intro fuel
  induction fuel with
  | zero =>
    intro attempts c _
    exact ⟨c, rfl, by simp [waitLoopAux], by simp [waitLoopAux], by simp [waitLoopAux],
      fun _ => by simp [waitLoopAux]⟩
  | succ n ih =>
    intro attempts c hc
    by_cases hs : c.state = some "PROCESSING"
    · obtain ⟨fin, h1, h2, h3, h4, h5⟩ := ih (attempts + 1) (fs attempts) (hnames attempts)
      have hstep := waitLoopAux_step get c (fs attempts) attempts n hs hc (hget attempts)
      rw [hstep]
      have hcount : (Event.sleep PROCESSING_DELAY :: Event.filesGet (c.name.getD "") ::
          (waitLoopAux get (fs attempts) (attempts + 1) n).2).countP Event.isFilesGet =
          (waitLoopAux get (fs attempts) (attempts + 1) n).2.countP Event.isFilesGet + 1 := by
        simp [List.countP_cons, Event.isFilesGet]
      have hcount5 : (Event.sleep PROCESSING_DELAY :: Event.filesGet (c.name.getD "") ::
          (waitLoopAux get (fs attempts) (attempts + 1) n).2).countP Event.isSleep5 =
          (waitLoopAux get (fs attempts) (attempts + 1) n).2.countP Event.isSleep5 + 1 := by
        simp [List.countP_cons, Event.isSleep5]
      refine ⟨fin, h1, ?_, ?_, ?_, ?_⟩
      · simp only [hcount]
        omega
      · simp only [hcount, hcount5]
        omega
      · simp only [hcount]
        rw [h4]
        by_cases hk : (waitLoopAux get (fs attempts) (attempts + 1) n).2.countP
            Event.isFilesGet = 0
        · simp [hk]
        · have hpos : ¬ ((waitLoopAux get (fs attempts) (attempts + 1) n).2.countP
              Event.isFilesGet + 1 = 0) := by omega
          simp only [hk, if_false, hpos, if_false]
          congr 1
          omega
      · intro hfin
        simp only [hcount]
        rw [h5 hfin]
    · rw [waitLoopAux_stop get c attempts (n + 1) hs]
      exact ⟨c, rfl, by simp, by simp, by simp, fun hcs => absurd hcs hs⟩

/-- The waitForFileProcessing trace is exactly the poll-loop trace. -/
theorem waitForFileProcessing_trace (get : Nat → Except ExtErr UploadedFile)
    (f : UploadedFile) :
    (waitForFileProcessing get f).2 =
      (waitLoopAux get f 0 PROCESSING_MAX_ATTEMPTS).2 := by
  simp only [waitForFileProcessing]
  split
  · rfl
  · split <;> rfl

/-- The waitForFileProcessing result, given the loop outcome. -/
theorem waitForFileProcessing_result (get : Nat → Except ExtErr UploadedFile)
    (f fin : UploadedFile)
    (h : (waitLoopAux get f 0 PROCESSING_MAX_ATTEMPTS).1 = .ok fin) :
    (waitForFileProcessing get f).1 =
      (if fin.state = some "ACTIVE" then .ok fin
       else .error (.processingIncomplete fin.state)) := by
  simp only [waitForFileProcessing, h]
  split <;> rfl

/-- Claim C3: `waitForFileProcessing` polls the remote get-status call at
a fixed 5-second interval at most `PROCESSING_MAX_ATTEMPTS = 10` times
(every poll paired with exactly one 5000ms sleep and the trace holds
nothing else), keeps polling only while the observed state is PROCESSING,
succeeds only with an ACTIVE file, and otherwise raises the
processing-failure error carrying the last observed state — in particular
when the budget is exhausted still PROCESSING, and when a terminal
non-ACTIVE state is reported.  Hypotheses: the polls themselves succeed
and every observed file keeps a truthy name. -/
theorem C3_wait_poll_budget (get : Nat → Except ExtErr UploadedFile)
    (fs : Nat → UploadedFile) (f : UploadedFile)
    (hget : ∀ i, get i = .ok (fs i))
    (hname : truthy f.name = true)
    (hnames : ∀ i, truthy (fs i).name = true) :
    (waitForFileProcessing get f).2.countP Event.isFilesGet ≤ PROCESSING_MAX_ATTEMPTS ∧
    (waitForFileProcessing get f).2.countP Event.isSleep5 =
      (waitForFileProcessing get f).2.countP Event.isFilesGet ∧
    (∀ e ∈ (waitForFileProcessing get f).2,
      e = Event.sleep PROCESSING_DELAY ∨ ∃ s, e = Event.filesGet s) ∧
    (∀ fin, (waitForFileProcessing get f).1 = .ok fin → fin.state = some "ACTIVE") ∧
    (∀ s, (waitForFileProcessing get f).1 = .error (.processingIncomplete s) →
      s = (if (waitForFileProcessing get f).2.countP Event.isFilesGet = 0 then f.state
           else (fs ((waitForFileProcessing get f).2.countP Event.isFilesGet - 1)).state) ∧
      s ≠ some "ACTIVE" ∧
      (s = some "PROCESSING" →
        (waitForFileProcessing get f).2.countP Event.isFilesGet =
          PROCESSING_MAX_ATTEMPTS)) ∧
    (∀ e, (waitForFileProcessing get f).1 = .error e →
      ∃ s, e = .processingIncomplete s) ∧
    (f.state = some "PROCESSING" → (∀ i, (fs i).state = some "PROCESSING") →
      (waitForFileProcessing get f).1 =
        .error (.processingIncomplete (some "PROCESSING")) ∧
      (waitForFileProcessing get f).2.countP Event.isFilesGet =
        PROCESSING_MAX_ATTEMPTS) := by
  obtain ⟨fin, h1, h2, h3, h4, h5⟩ :=
    waitLoopAux_spec get fs hget hnames PROCESSING_MAX_ATTEMPTS 0 f hname
  have htr := waitForFileProcessing_trace get f
  have hres := waitForFileProcessing_result get f fin h1
  refine ⟨?_, ?_, waitForFileProcessing_events get f, ?_, ?_, ?_, ?_⟩
  · rw [htr]; exact h2
  · rw [htr]; exact h3
  · intro fin2 hok
    exact waitForFileProcessing_ok_active get f fin2 hok
  · intro s hs
    rw [hres] at hs
    by_cases hact : fin.state = some "ACTIVE"
    · simp [hact] at hs
    · simp only [hact, if_false, Except.error.injEq, Err.processingIncomplete.injEq] at hs
      subst hs
      refine ⟨?_, hact, ?_⟩
      · rw [htr, h4]
        by_cases hk : (waitLoopAux get f 0 PROCESSING_MAX_ATTEMPTS).2.countP
            Event.isFilesGet = 0
        · simp [hk]
        · simp [hk]
      · intro hproc
        rw [htr]
        exact h5 hproc
  · intro e he
    rw [hres] at he
    by_cases hact : fin.state = some "ACTIVE"
    · simp [hact] at he
    · simp only [hact, if_false, Except.error.injEq] at he
      exact ⟨fin.state, he.symm⟩
  · intro hf hall
    have hfin : fin.state = some "PROCESSING" := by
      rw [h4]
      by_cases hk : (waitLoopAux get f 0 PROCESSING_MAX_ATTEMPTS).2.countP
          Event.isFilesGet = 0
      · simp [hk, hf]
      · simp only [hk, if_false]
        exact hall _
    have hact : ¬ fin.state = some "ACTIVE" := by
      rw [hfin]; simp
    rw [hres, htr]
    simp only [hact, if_false]
    exact ⟨by rw [hfin], h5 hfin⟩

/-- A form request with a file under the cap validates to that file. -/
theorem validateAndExtractFile_form_ok (f : FormFile)
    (hcap : f.size ≤ MAX_FILE_SIZE) :
    validateAndExtractFile (.form (some f)) = .ok (.real f) := by
  simp only [validateAndExtractFile]
  rw [if_neg (by omega)]

/-- With a truthy credential, the POST trace is the try-block trace
followed by the cleanup trace. -/
theorem POST_trace (env : Env) (hkey : truthy env.apiKey = true) :
    (POST env).2 =
      (POSTmain env).events ++
        cleanup (POSTmain env).tempFilePath (POSTmain env).uploadedFileForDeletion
          env.filesDeleteResult env.tempExists := by
  simp [POST, hkey]

/-- With a truthy credential, the POST response is shaped from the
try-block result only. -/
theorem POST_response (env : Env) (hkey : truthy env.apiKey = true) :
    (POST env).1 =
      (match (POSTmain env).result with
       | .ok (analysisResult, file) =>
         ⟨200, ⟨some true, some analysisResult, none, some file.name,
           some (if isBase64Route file.size then "Base64" else "Files API")⟩⟩
       | .error e => ⟨500, ⟨some false, none, some e, none, none⟩⟩) := by
  simp [POST, hkey]

/-- The refactored try-block on the inline route with a real file:
one temp write, then the server-side base64 pipeline; no staged handle. -/
theorem POSTmain_inline_real (env : Env) (f : FormFile)
    (hval : validateAndExtractFile env.request = .ok (.real f))
    (hroute : isBase64Route f.size = true) :
    POSTmain env =
      ⟨(processWithBase64 env.flashResult env.proResult env.tempContentB64 f.type).1.map
          (fun t => (t, .real f)),
        mkTempPath env.tempDir env.fileId f.name, none,
        Event.tempWrite (mkTempPath env.tempDir env.fileId f.name) ::
          (processWithBase64 env.flashResult env.proResult env.tempContentB64 f.type).2⟩ := by
  simp [POSTmain, hval, FileLike.size, FileLike.base64Data, FileLike.type, FileLike.name,
    hroute, truthy, saveTemporaryFile, mkTempPath]

/-- The refactored try-block on the staged route with a real file:
one temp write, the upload/poll pipeline, and on its success the staged
generation call; the staged handle is recorded only when the whole
upload-and-wait step returned. -/
theorem POSTmain_staged_real (env : Env) (f : FormFile)
    (hval : validateAndExtractFile env.request = .ok (.real f))
    (hroute : isBase64Route f.size = false) :
    POSTmain env =
      ⟨(match (uploadFileWithFilesAPI env.uploadResult env.getResult
            (mkTempPath env.tempDir env.fileId f.name)).1 with
        | .error e => .error e
        | .ok u => (processWithFilesAPI env.flashResult env.proResult u).1.map
            (fun t => (t, .real f))),
        mkTempPath env.tempDir env.fileId f.name,
        (match (uploadFileWithFilesAPI env.uploadResult env.getResult
            (mkTempPath env.tempDir env.fileId f.name)).1 with
         | .error _ => none
         | .ok u => some u),
        Event.tempWrite (mkTempPath env.tempDir env.fileId f.name) ::
          ((uploadFileWithFilesAPI env.uploadResult env.getResult
              (mkTempPath env.tempDir env.fileId f.name)).2 ++
            (match (uploadFileWithFilesAPI env.uploadResult env.getResult
                (mkTempPath env.tempDir env.fileId f.name)).1 with
             | .error _ => []
             | .ok u => (processWithFilesAPI env.flashResult env.proResult u).2))⟩ := by
  have hsave : saveTemporaryFile (.real f) env.tempDir env.fileId =
      (.ok (mkTempPath env.tempDir env.fileId f.name),
        [.tempWrite (mkTempPath env.tempDir env.fileId f.name)]) := rfl
  simp only [POSTmain, hval, FileLike.size, hroute, Bool.false_eq_true, if_false, hsave]
  rcases hu : uploadFileWithFilesAPI env.uploadResult env.getResult
    (mkTempPath env.tempDir env.fileId f.name) with ⟨r, evs⟩
  cases r <;> simp [hu]

/-- The refactored try-block when validation throws: nothing happened. -/
theorem POSTmain_validate_error (env : Env) (e : Err)
    (hval : validateAndExtractFile env.request = .error e) :
    POSTmain env = ⟨.error e, "", none, []⟩ := by
  simp [POSTmain, hval]

/-- The refactored try-block on the inline route with a pre-encoded
payload: only the inline generation pipeline runs, no temp file. -/
theorem POSTmain_inline_pre (env : Env) (name : String) (sz : Nat) (ty : String)
    (b64 : Option String)
    (hval : validateAndExtractFile env.request = .ok (.extended name sz ty b64))
    (hroute : isBase64Route sz = true) (hb : truthy b64 = true) :
    POSTmain env =
      ⟨(processWithPreEncodedBase64 env.flashResult env.proResult
          (b64.getD "") ty).1.map (fun t => (t, .extended name sz ty b64)),
        "", none,
        (processWithPreEncodedBase64 env.flashResult env.proResult (b64.getD "") ty).2⟩ := by
  simp [POSTmain, hval, FileLike.size, FileLike.base64Data, FileLike.type, hroute, hb]

/-- The refactored try-block on an extended file without a usable
pre-encoded payload: `saveTemporaryFile` throws before any external call. -/
theorem POSTmain_ext_nob64 (env : Env) (name : String) (sz : Nat) (ty : String)
    (b64 : Option String)
    (hval : validateAndExtractFile env.request = .ok (.extended name sz ty b64))
    (hb : truthy b64 = false) :
    POSTmain env = ⟨.error .extendedFileUnsupported, "", none, []⟩ := by
  by_cases hroute : isBase64Route sz = true
  · simp [POSTmain, hval, FileLike.size, FileLike.base64Data, hroute, hb,
      saveTemporaryFile]
  · simp only [Bool.not_eq_true] at hroute
    simp [POSTmain, hval, FileLike.size, FileLike.base64Data, hroute, hb,
      saveTemporaryFile]

/-- The refactored try-block on the staged route with an extended file:
`saveTemporaryFile` throws before any external call. -/
theorem POSTmain_staged_ext (env : Env) (name : String) (sz : Nat) (ty : String)
    (b64 : Option String)
    (hval : validateAndExtractFile env.request = .ok (.extended name sz ty b64))
    (hroute : isBase64Route sz = false) :
    POSTmain env = ⟨.error .extendedFileUnsupported, "", none, []⟩ := by
  simp [POSTmain, hval, FileLike.size, hroute, saveTemporaryFile]

/-- A successful uploadFileWithFilesAPI comes from a successful upload
with a truthy name whose wait returned the same file. -/
theorem uploadFileWithFilesAPI_ok (ur : Except ExtErr UploadedFile)
    (get : Nat → Except ExtErr UploadedFile) (p : String) (u : UploadedFile)
    (h : (uploadFileWithFilesAPI ur get p).1 = .ok u) :
    ∃ up, ur = .ok up ∧ truthy up.name = true ∧
      (waitForFileProcessing get up).1 = .ok u := by
  unfold uploadFileWithFilesAPI at h
  cases ur with
  | error e => simp at h
  | ok up =>
    by_cases hn : truthy up.name
    · simp only [hn, if_true] at h
      exact ⟨up, rfl, hn, h⟩
    · simp [hn] at h

/-- A failed wait makes uploadFileWithFilesAPI fail with the same error. -/
theorem uploadFileWithFilesAPI_wait_error (ur : Except ExtErr UploadedFile)
    (get : Nat → Except ExtErr UploadedFile) (p : String) (up : UploadedFile)
    (er : Err) (hur : ur = .ok up) (hn : truthy up.name = true)
    (hw : (waitForFileProcessing get up).1 = .error er) :
    (uploadFileWithFilesAPI ur get p).1 = .error er := by
  unfold uploadFileWithFilesAPI
  simp only [hur, hn, if_true]
  exact hw

/-- An inline generation pipeline never emits a staged generation call. -/
theorem executeGemini_inline_no_fileData (flash pro : MediaPart → Except ExtErr String)
    (mt d : String) :
    ∀ tier m u, Event.generateContent tier (.fileData m u) ∉
      (executeGeminiAnalysis flash pro (.inlineData mt d)).2 := by
  intro tier m u hmem
  rcases executeGeminiAnalysis_events flash pro _ _ hmem with ⟨t2, h⟩ | h <;> simp at h

/-- Claim C4: the routing decision is the pure function
`size ≤ 20MB ↦ inline` of the payload size and the fixed threshold only;
on a real form upload under the 2GB cap, a size at most the threshold
(including exactly the threshold) triggers no staged upload and only
inline generation calls, while a size above it triggers exactly one
staged upload. -/
theorem C4_size_routing :
    (∀ s : Nat, isBase64Route s = decide (s ≤ GEMINI_BASE64_LIMIT)) ∧
    isBase64Route GEMINI_BASE64_LIMIT = true ∧
    (∀ (env : Env) (f : FormFile),
      truthy env.apiKey = true →
      env.request = .form (some f) →
      f.size ≤ MAX_FILE_SIZE →
      ((f.size ≤ GEMINI_BASE64_LIMIT →
        (POST env).2.countP Event.isUpload = 0 ∧
        (∀ tier mt u, Event.generateContent tier (.fileData mt u) ∉ (POST env).2)) ∧
       (GEMINI_BASE64_LIMIT < f.size →
        (POST env).2.countP Event.isUpload = 1))) := by
  refine ⟨fun s => rfl, by decide, ?_⟩
  intro env f hkey hreq hcap
  have hval : validateAndExtractFile env.request = .ok (.real f) := by
    rw [hreq]; exact validateAndExtractFile_form_ok f hcap
  have htr := POST_trace env hkey
  constructor
  · intro hsize
    have hroute : isBase64Route f.size = true := by
      simp [isBase64Route, hsize]
    have hm := POSTmain_inline_real env f hval hroute
    rw [htr, hm]
    have h1 : (processWithBase64 env.flashResult env.proResult
        env.tempContentB64 f.type).2.countP Event.isUpload = 0 := by
      unfold processWithBase64
      exact executeGeminiAnalysis_countP_zero _ _ _ Event.isUpload (fun tier => rfl) rfl
    have h2 : (cleanup (mkTempPath env.tempDir env.fileId f.name) none
        env.filesDeleteResult env.tempExists).countP Event.isUpload = 0 :=
      cleanup_countP_zero _ _ _ _ Event.isUpload (fun s => rfl) (fun s => rfl) (fun s => rfl)
    constructor
    · simp [List.countP_append, List.countP_cons, h1, h2, Event.isUpload]
    · intro tier mt u hmem
      rw [List.mem_append] at hmem
      rcases hmem with hmem | hmem
      · rw [List.mem_cons] at hmem
        rcases hmem with h | h
        · exact absurd h (by simp)
        · have h3 : ∀ e ∈ (processWithBase64 env.flashResult env.proResult
              env.tempContentB64 f.type).2,
              (∃ tier2, e = Event.generateContent tier2
                (.inlineData (orDefaultMime f.type) env.tempContentB64)) ∨
                e = Event.sleep 2000 :=
            executeGeminiAnalysis_events env.flashResult env.proResult _
          rcases h3 _ h with ⟨t2, h2⟩ | h2
          · simp at h2
          · simp at h2
      · rcases cleanup_events _ _ _ _ _ hmem with ⟨s, h2⟩ | ⟨s, h2⟩ | ⟨s, h2⟩ <;>
          simp at h2
  · intro hsize
    have hroute : isBase64Route f.size = false := by
      simp [isBase64Route]
      omega
    have hm := POSTmain_staged_real env f hval hroute
    rw [htr, hm]
    have hupl := (uploadFileWithFilesAPI_events env.uploadResult env.getResult
      (mkTempPath env.tempDir env.fileId f.name)).2
    have h2 : (cleanup (mkTempPath env.tempDir env.fileId f.name)
        (match (uploadFileWithFilesAPI env.uploadResult env.getResult
            (mkTempPath env.tempDir env.fileId f.name)).1 with
         | .error _ => none
         | .ok u => some u)
        env.filesDeleteResult env.tempExists).countP Event.isUpload = 0 :=
      cleanup_countP_zero _ _ _ _ Event.isUpload (fun s => rfl) (fun s => rfl) (fun s => rfl)
    have h3 : ∀ u, (processWithFilesAPI env.flashResult env.proResult u).2.countP
        Event.isUpload = 0 := fun u =>
      processWithFilesAPI_countP_zero _ _ _ Event.isUpload (fun tier media => rfl) rfl
    rcases hu : (uploadFileWithFilesAPI env.uploadResult env.getResult
      (mkTempPath env.tempDir env.fileId f.name)).1 with e | u <;>
      simp only [hu] at h2 ⊢ <;>
      simp [List.countP_append, List.countP_cons, hupl, h2, h3, Event.isUpload]

/-- Witness for C4: a 20MB payload (exactly the threshold) routes inline
with no staged upload, and a 21MB payload performs exactly one staged
upload. -/
theorem C4_size_routing_witness :
    ((POST { baseEnv with
        request := .form (some ⟨"swing.mov", GEMINI_BASE64_LIMIT, "video/mp4"⟩) }).2.countP
      Event.isUpload = 0) ∧
    (POST envStagedOk).2.countP Event.isUpload = 1 := by
  constructor
  · exact ((C4_size_routing.2.2
      { baseEnv with
        request := .form (some ⟨"swing.mov", GEMINI_BASE64_LIMIT, "video/mp4"⟩) }
      ⟨"swing.mov", GEMINI_BASE64_LIMIT, "video/mp4"⟩ (by decide) rfl (by decide)).1
      (by decide)).1
  · exact (C4_size_routing.2.2 envStagedOk bigFormFile (by decide) rfl (by decide)).2
      (by decide)

/-- Witness for C3 at a concrete input: a PROCESSING upload whose first
poll reports ACTIVE; the bounds hold and the wait succeeds with the
ACTIVE file. -/
theorem C3_wait_poll_budget_witness :
    (waitForFileProcessing getActive processingFile).2.countP Event.isFilesGet ≤
      PROCESSING_MAX_ATTEMPTS ∧
    (waitForFileProcessing getActive processingFile).2.countP Event.isSleep5 =
      (waitForFileProcessing getActive processingFile).2.countP Event.isFilesGet ∧
    activeFile.state = some "ACTIVE" := by
  have h := C3_wait_poll_budget getActive (fun _ => activeFile) processingFile
    (fun _ => rfl) (by decide)
    (fun _ => show truthy activeFile.name = true by decide)
  exact ⟨h.1, h.2.1, h.2.2.2.1 activeFile (by rfl)⟩

/-- Claim C7: a generation call referencing a staged file happens only if
the upload succeeded and the wait step returned a file observed in state
ACTIVE; and when the wait step fails (the file never reached ACTIVE
within the polling budget), the request answers 500 and no staged
generation call occurs. -/
theorem C7_staged_only_after_active :
    (∀ (env : Env) (tier mt u : String),
      Event.generateContent tier (.fileData mt u) ∈ (POST env).2 →
      ∃ up fin, env.uploadResult = .ok up ∧ truthy up.name = true ∧
        (waitForFileProcessing env.getResult up).1 = .ok fin ∧
        fin.state = some "ACTIVE") ∧
    (∀ (env : Env) (f : FormFile) (up : UploadedFile) (er : Err),
      truthy env.apiKey = true →
      env.request = .form (some f) →
      f.size ≤ MAX_FILE_SIZE →
      isBase64Route f.size = false →
      env.uploadResult = .ok up →
      truthy up.name = true →
      (waitForFileProcessing env.getResult up).1 = .error er →
      (POST env).1.status = 500 ∧
      (∀ tier mt u, Event.generateContent tier (.fileData mt u) ∉ (POST env).2)) := by
  constructor
  · intro env tier mt u hmem
    by_cases hkey : truthy env.apiKey
    · rw [POST_trace env hkey, List.mem_append] at hmem
      rcases hmem with hmem | hmem
      · rcases hval : validateAndExtractFile env.request with e | file
        · rw [POSTmain_validate_error env e hval] at hmem
          simp at hmem
        · cases file with
          | real f =>
            by_cases hroute : isBase64Route f.size
            · rw [POSTmain_inline_real env f hval hroute] at hmem
              simp only [List.mem_cons] at hmem
              rcases hmem with h | h
              · simp at h
              · exact absurd h
                  (executeGemini_inline_no_fileData env.flashResult env.proResult _ _ tier mt u)
            · rw [POSTmain_staged_real env f hval (by simpa using hroute)] at hmem
              simp only [List.mem_cons, List.mem_append] at hmem
              rcases hu : (uploadFileWithFilesAPI env.uploadResult env.getResult
                (mkTempPath env.tempDir env.fileId f.name)).1 with e2 | u2
              · rw [hu] at hmem
                rcases hmem with h | h | h
                · simp at h
                · rcases (uploadFileWithFilesAPI_events env.uploadResult env.getResult
                      (mkTempPath env.tempDir env.fileId f.name)).1 _ h with
                    h2 | h2 | ⟨s, h2⟩ <;> simp at h2
                · simp at h
              · obtain ⟨up, hur, hn, hw⟩ := uploadFileWithFilesAPI_ok
                  env.uploadResult env.getResult _ u2 hu
                exact ⟨up, u2, hur, hn, hw,
                  waitForFileProcessing_ok_active env.getResult up u2 hw⟩
          | extended name sz ty b64 =>
            by_cases hb : truthy b64
            · by_cases hroute : isBase64Route sz
              · rw [POSTmain_inline_pre env name sz ty b64 hval hroute hb] at hmem
                exact absurd hmem
                  (executeGemini_inline_no_fileData env.flashResult env.proResult _ _ tier mt u)
              · rw [POSTmain_staged_ext env name sz ty b64 hval (by simpa using hroute)] at hmem
                simp at hmem
            · rw [POSTmain_ext_nob64 env name sz ty b64 hval (by simpa using hb)] at hmem
              simp at hmem
      · rcases cleanup_events _ _ _ _ _ hmem with ⟨s, h2⟩ | ⟨s, h2⟩ | ⟨s, h2⟩ <;>
          simp at h2
    · have hkey2 : truthy env.apiKey = false := by simpa using hkey
      simp [POST, hkey2] at hmem
  · intro env f up er hkey hreq hcap hroute hur hn hw
    have hval : validateAndExtractFile env.request = .ok (.real f) := by
      rw [hreq]; exact validateAndExtractFile_form_ok f hcap
    have hu : (uploadFileWithFilesAPI env.uploadResult env.getResult
        (mkTempPath env.tempDir env.fileId f.name)).1 = .error er :=
      uploadFileWithFilesAPI_wait_error _ _ _ up er hur hn hw
    have hm := POSTmain_staged_real env f hval hroute
    constructor
    · rw [POST_response env hkey, hm]
      simp [hu]
    · intro tier mt u hmem
      rw [POST_trace env hkey, hm] at hmem
      simp only [hu, List.mem_append, List.mem_cons, List.append_nil] at hmem
      rcases hmem with (h | h) | h
      · simp at h
      · rcases (uploadFileWithFilesAPI_events env.uploadResult env.getResult
            (mkTempPath env.tempDir env.fileId f.name)).1 _ h with
          h2 | h2 | ⟨s, h2⟩ <;> simp at h2
      · rcases cleanup_events _ _ _ _ _ h with ⟨s, h2⟩ | ⟨s, h2⟩ | ⟨s, h2⟩ <;>
          simp at h2

/-- Witness for C7: the concrete staged run emits a staged generation
call, and the theorem recovers the successful upload and the ACTIVE wait
outcome behind it. -/
theorem C7_staged_only_after_active_witness :
    ∃ up fin, envStagedOk.uploadResult = .ok up ∧ truthy up.name = true ∧
      (waitForFileProcessing envStagedOk.getResult up).1 = .ok fin ∧
      fin.state = some "ACTIVE" :=
  C7_staged_only_after_active.1 envStagedOk "gemini-1.5-flash" "video/mp4" "https://u"
    (by decide)

/-- A JSON request with the base64 method and a size under the cap
validates to the corresponding extended file. -/
theorem validateAndExtractFile_json_ok (b : JsonBody)
    (hmethod : b.method = "base64") (hcap : b.fileSize ≤ MAX_FILE_SIZE) :
    validateAndExtractFile (.json b) =
      .ok (.extended b.fileName b.fileSize b.fileType b.base64Data) := by
  simp only [validateAndExtractFile, hmethod]
  rw [if_neg (by simp), if_neg (by omega)]

/-- Claim C8: on every successful inline-path request — a multipart form
file encoded server-side, or a pre-encoded JSON base64 body — the
`analysis` field is exactly the text string returned by whichever model
tier succeeded (the flash tier, or on its failure the pro tier),
untransformed. -/
theorem C8_inline_roundtrip :
    (∀ (env : Env) (f : FormFile) (t : String),
      truthy env.apiKey = true →
      env.request = .form (some f) →
      f.size ≤ MAX_FILE_SIZE →
      isBase64Route f.size = true →
      (POST env).1.body.analysis = some t →
      (POST env).1.status = 200 ∧
      (env.flashResult (.inlineData (orDefaultMime f.type) env.tempContentB64) =
          .ok t ∨
        (∃ e, env.flashResult (.inlineData (orDefaultMime f.type) env.tempContentB64) =
            .error e ∧
          env.proResult (.inlineData (orDefaultMime f.type) env.tempContentB64) =
            .ok t))) ∧
    (∀ (env : Env) (b : JsonBody) (t : String),
      truthy env.apiKey = true →
      env.request = .json b →
      b.method = "base64" →
      b.fileSize ≤ MAX_FILE_SIZE →
      isBase64Route b.fileSize = true →
      truthy b.base64Data = true →
      (POST env).1.body.analysis = some t →
      (POST env).1.status = 200 ∧
      (env.flashResult
          (.inlineData (orDefaultMime b.fileType) (b.base64Data.getD "")) = .ok t ∨
        (∃ e, env.flashResult
            (.inlineData (orDefaultMime b.fileType) (b.base64Data.getD "")) =
            .error e ∧
          env.proResult
            (.inlineData (orDefaultMime b.fileType) (b.base64Data.getD "")) =
            .ok t))) := by
  constructor
  · intro env f t hkey hreq hcap hsize hana
    have hval : validateAndExtractFile env.request = .ok (.real f) := by
      rw [hreq]; exact validateAndExtractFile_form_ok f hcap
    have hm := POSTmain_inline_real env f hval hsize
    have hresp := POST_response env hkey
    rw [hm] at hresp
    cases hf : env.flashResult (.inlineData (orDefaultMime f.type) env.tempContentB64) with
    | ok t0 =>
      have hr : (processWithBase64 env.flashResult env.proResult
          env.tempContentB64 f.type).1 = .ok t0 := by
        unfold processWithBase64 executeGeminiAnalysis
        rw [hf]
      rw [hr] at hresp
      simp only [Except.map] at hresp
      rw [hresp] at hana
      simp only at hana
      have ht := Option.some.inj hana
      subst ht
      exact ⟨by rw [hresp], Or.inl rfl⟩
    | error e =>
      cases hp : env.proResult (.inlineData (orDefaultMime f.type) env.tempContentB64) with
      | ok t0 =>
        have hr : (processWithBase64 env.flashResult env.proResult
            env.tempContentB64 f.type).1 = .ok t0 := by
          unfold processWithBase64 executeGeminiAnalysis
          rw [hf, hp]
        rw [hr] at hresp
        simp only [Except.map] at hresp
        rw [hresp] at hana
        simp only at hana
        have ht := Option.some.inj hana
        subst ht
        exact ⟨by rw [hresp], Or.inr ⟨e, rfl, rfl⟩⟩
      | error pe =>
        have hr : (processWithBase64 env.flashResult env.proResult
            env.tempContentB64 f.type).1 = .error (.sdkError pe) := by
          unfold processWithBase64 executeGeminiAnalysis
          rw [hf, hp]
        rw [hr] at hresp
        simp only [Except.map] at hresp
        rw [hresp] at hana
        simp at hana
  · intro env b t hkey hreq hmethod hcap hsize hb hana
    have hval : validateAndExtractFile env.request =
        .ok (.extended b.fileName b.fileSize b.fileType b.base64Data) := by
      rw [hreq]; exact validateAndExtractFile_json_ok b hmethod hcap
    have hm := POSTmain_inline_pre env b.fileName b.fileSize b.fileType b.base64Data
      hval hsize hb
    have hresp := POST_response env hkey
    rw [hm] at hresp
    cases hf : env.flashResult
        (.inlineData (orDefaultMime b.fileType) (b.base64Data.getD "")) with
    | ok t0 =>
      have hr : (processWithPreEncodedBase64 env.flashResult env.proResult
          (b.base64Data.getD "") b.fileType).1 = .ok t0 := by
        unfold processWithPreEncodedBase64 executeGeminiAnalysis
        rw [hf]
      rw [hr] at hresp
      simp only [Except.map] at hresp
      rw [hresp] at hana
      simp only at hana
      have ht := Option.some.inj hana
      subst ht
      exact ⟨by rw [hresp], Or.inl rfl⟩
    | error e =>
      cases hp : env.proResult
          (.inlineData (orDefaultMime b.fileType) (b.base64Data.getD "")) with
      | ok t0 =>
        have hr : (processWithPreEncodedBase64 env.flashResult env.proResult
            (b.base64Data.getD "") b.fileType).1 = .ok t0 := by
          unfold processWithPreEncodedBase64 executeGeminiAnalysis
          rw [hf, hp]
        rw [hr] at hresp
        simp only [Except.map] at hresp
        rw [hresp] at hana
        simp only at hana
        have ht := Option.some.inj hana
        subst ht
        exact ⟨by rw [hresp], Or.inr ⟨e, rfl, rfl⟩⟩
      | error pe =>
        have hr : (processWithPreEncodedBase64 env.flashResult env.proResult
            (b.base64Data.getD "") b.fileType).1 = .error (.sdkError pe) := by
          unfold processWithPreEncodedBase64 executeGeminiAnalysis
          rw [hf, hp]
        rw [hr] at hresp
        simp only [Except.map] at hresp
        rw [hresp] at hana
        simp at hana

/-- Witness for C8: both concrete successful inline runs — the form file
and the pre-encoded JSON body — answer 200 with the flash model's output
as their analysis text. -/
theorem C8_inline_roundtrip_witness :
    ((POST baseEnv).1.status = 200 ∧
      (baseEnv.flashResult
          (.inlineData (orDefaultMime smallFormFile.type) baseEnv.tempContentB64) =
          .ok "flash answer" ∨
        (∃ e, baseEnv.flashResult
            (.inlineData (orDefaultMime smallFormFile.type) baseEnv.tempContentB64) =
            .error e ∧
          baseEnv.proResult
            (.inlineData (orDefaultMime smallFormFile.type) baseEnv.tempContentB64) =
            .ok "flash answer"))) ∧
    ((POST envJsonInline).1.status = 200 ∧
      (envJsonInline.flashResult (.inlineData (orDefaultMime "video/mp4") "QUFB") =
          .ok "flash answer" ∨
        (∃ e, envJsonInline.flashResult
            (.inlineData (orDefaultMime "video/mp4") "QUFB") = .error e ∧
          envJsonInline.proResult (.inlineData (orDefaultMime "video/mp4") "QUFB") =
            .ok "flash answer"))) :=
  ⟨C8_inline_roundtrip.1 baseEnv smallFormFile "flash answer" (by decide) rfl
      (by decide) (by decide) (by decide),
    C8_inline_roundtrip.2 envJsonInline
      ⟨"base64", "swing.mov", 10 * 1024 * 1024, "video/mp4", some "QUFB"⟩
      "flash answer" (by decide) rfl rfl (by decide) (by decide) (by decide)
      (by decide)⟩

/-- Counterexample for C5: the refactored handler answers 500, not 400,
to a request with no file, and 500, not 413, to a 2.5GB request. -/
theorem C5_counterexample :
    (POST envNoFile).1.status = 500 ∧ ¬ (POST envNoFile).1.status = 400 ∧
    (POST envOverCap).1.status = 500 ∧ ¬ (POST envOverCap).1.status = 413 := by
  decide

/-- Claim C5 (amended): a missing file or an over-cap size is rejected
before any temp-file write or external call (the trace is empty) in both
handler variants, but only the legacy handler answers 400/413; the
refactored handler throws the validation error into its generic catch and
answers 500. -/
theorem C5_validation_amended :
    (∀ env : Env, truthy env.apiKey = true → env.request = .form none →
      POST env = (⟨500, ⟨some false, none, some .noFileSelected, none, none⟩⟩, [])) ∧
    (∀ (env : Env) (f : FormFile), truthy env.apiKey = true →
      env.request = .form (some f) → f.size > MAX_FILE_SIZE →
      POST env =
        (⟨500, ⟨some false, none, some (.fileTooLarge f.size), none, none⟩⟩, [])) ∧
    (∀ env : Env, truthy env.apiKey = true →
      (POSTv1 env none).1 =
        .ok ⟨400, ⟨none, none, some .noFileProvided, none, none⟩⟩ ∧
      (POSTv1 env none).2 = []) ∧
    (∀ (env : Env) (f : FormFile), truthy env.apiKey = true →
      f.size > MAX_FILE_SIZE →
      (POSTv1 env (some f)).1 =
        .ok ⟨413, ⟨none, none, some .payloadTooLarge, none, none⟩⟩ ∧
      (POSTv1 env (some f)).2 = []) := by
  refine ⟨?_, ?_, ?_, ?_⟩
  · intro env hkey hreq
    have hval : validateAndExtractFile env.request = .error .noFileSelected := by
      rw [hreq]; rfl
    have hm := POSTmain_validate_error env _ hval
    simp [POST, hkey, hm, cleanup, cleanupLocal]
  · intro env f hkey hreq hsize
    have hval : validateAndExtractFile env.request = .error (.fileTooLarge f.size) := by
      rw [hreq]
      simp only [validateAndExtractFile]
      rw [if_pos hsize]
    have hm := POSTmain_validate_error env _ hval
    simp [POST, hkey, hm, cleanup, cleanupLocal]
  · intro env hkey
    simp [POSTv1, hkey, POSTv1main, cleanup, cleanupLocal]
  · intro env f hkey hsize
    simp [POSTv1, hkey, POSTv1main, hsize, cleanup, cleanupLocal]

/-- Witness for C5 (amended) at concrete inputs: no-file and over-cap
requests in both handler variants. -/
theorem C5_validation_amended_witness :
    POST envNoFile =
      (⟨500, ⟨some false, none, some .noFileSelected, none, none⟩⟩, []) ∧
    POST envOverCap =
      (⟨500, ⟨some false, none, some (.fileTooLarge 2684354560), none, none⟩⟩, []) ∧
    (POSTv1 baseEnv none).1 =
      .ok ⟨400, ⟨none, none, some .noFileProvided, none, none⟩⟩ ∧
    (POSTv1 baseEnv (some ⟨"swing.mov", 2684354560, "video/mp4"⟩)).1 =
      .ok ⟨413, ⟨none, none, some .payloadTooLarge, none, none⟩⟩ :=
  ⟨C5_validation_amended.1 envNoFile (by decide) rfl,
    C5_validation_amended.2.1 envOverCap ⟨"swing.mov", 2684354560, "video/mp4"⟩
      (by decide) rfl (by decide),
    (C5_validation_amended.2.2.1 baseEnv (by decide)).1,
    (C5_validation_amended.2.2.2 baseEnv ⟨"swing.mov", 2684354560, "video/mp4"⟩
      (by decide) (by decide)).1⟩

/-- Counterexample for C6: with the credential unset, the legacy handler
does not answer with a JSON 500 — the configuration error is thrown
before its try-block and escapes the handler. -/
theorem C6_counterexample :
    (POSTv1 envNoKey none).1 = .error .configMissingApiKey := by
  rfl

/-- Claim C6 (amended): in the refactored handler a missing credential is
answered with an HTTP 500 JSON error body before any processing (empty
trace), and every response either is a 200 success or carries an error
in a JSON body with status 500; the legacy handler instead throws the
configuration error out of the handler when the credential is absent. -/
theorem C6_config_amended :
    (∀ env : Env, truthy env.apiKey = false →
      POST env =
        (⟨500, ⟨none, none, some .configMissingApiKey, none, none⟩⟩, [])) ∧
    (∀ env : Env,
      ((POST env).1.status = 200 ∧ (POST env).1.body.success = some true ∧
        (POST env).1.body.error = none) ∨
      ((POST env).1.status = 500 ∧ ¬ (POST env).1.body.error = none)) ∧
    (∀ (env : Env) (file? : Option FormFile), truthy env.apiKey = false →
      (POSTv1 env file?).1 = .error .configMissingApiKey) := by
  refine ⟨?_, ?_, ?_⟩
  · intro env hkey
    simp [POST, hkey]
  · intro env
    by_cases hkey : truthy env.apiKey
    · have hresp := POST_response env hkey
      rcases hr : (POSTmain env).result with e | ⟨t, file⟩
      · rw [hr] at hresp
        right
        rw [hresp]
        simp
      · rw [hr] at hresp
        left
        rw [hresp]
        simp
    · have hkey2 : truthy env.apiKey = false := by simpa using hkey
      right
      simp [POST, hkey2]
  · intro env file? hkey
    simp [POSTv1, hkey]

/-- Witness for C6 (amended) at a concrete input: the refactored handler
with the credential unset answers the JSON 500 immediately. -/
theorem C6_config_amended_witness :
    POST envNoKey =
      (⟨500, ⟨none, none, some .configMissingApiKey, none, none⟩⟩, []) :=
  C6_config_amended.1 envNoKey (by decide)

/-- Claim C10: the `/api/analyze` endpoint supports only the inline path.
With the credential set, any `videoBase64` whose estimated decoded size
(3/4 of its length) exceeds 30MB, or whose length exceeds 40MB, is
answered 413 with an empty trace — before any model call; and no request
to this endpoint ever writes a temp file or performs a staged upload. -/
theorem C10_analyze_inline_only :
    (∀ (env : AnalyzeEnv) (v : String),
      truthy env.apiKey = true →
      env.videoBase64 = some v →
      (estimatedSizeExceeds v.length = true ∨
        v.length > ANALYZE_MAX_BASE64_SIZE) →
      (analyzePOST env).1.status = 413 ∧ (analyzePOST env).2 = []) ∧
    (∀ env : AnalyzeEnv,
      (analyzePOST env).2.countP Event.isTempWrite = 0 ∧
      (analyzePOST env).2.countP Event.isUpload = 0) := by
  constructor
  · intro env v hkey hv hcond
    have hest : estimatedSizeExceeds v.length = true := by
      rcases hcond with h | h
      · exact h
      · simp only [estimatedSizeExceeds, ANALYZE_MAX_SIZE, decide_eq_true_eq]
        simp only [ANALYZE_MAX_BASE64_SIZE] at h
        omega
    have hlen : v.length ≠ 0 := by
      simp only [estimatedSizeExceeds, ANALYZE_MAX_SIZE, decide_eq_true_eq] at hest
      omega
    have htr : truthy (some v) = true := by
      simp [truthy, hlen]
    simp [analyzePOST, hkey, hv, htr, hest]
  · intro env
    simp only [analyzePOST]
    split
    · simp
    · split
      · simp
      · split
        · simp
        · split
          · simp
          · split
            · simp [Event.isTempWrite, Event.isUpload]
            · split
              · simp [Event.isTempWrite, Event.isUpload]
              · split <;> simp [Event.isTempWrite, Event.isUpload]

/-- Witness for C10 at a concrete oversized payload: 413 with an empty
trace. -/
theorem C10_analyze_inline_only_witness :
    (analyzePOST analyzeEnvHuge).1.status = 413 ∧
    (analyzePOST analyzeEnvHuge).2 = [] := by
  have hlen : hugeBase64.length = 41943041 := by
    rw [show hugeBase64.length = (List.replicate 41943041 'a').length from rfl,
      List.length_replicate]
  exact C10_analyze_inline_only.1 analyzeEnvHuge hugeBase64 (by decide) rfl
    (Or.inr (by rw [hlen]; decide))

/-- Temp paths carry the separator characters, hence are never empty. -/
theorem mkTempPath_length_ne_zero (a b c : String) :
    ¬ (mkTempPath a b c).length = 0 := by
  simp only [mkTempPath, String.length_append]
  have h : ("/" : String).length = 1 := rfl
  omega

/-- Every event of the refactored try-block is a temp write, an upload, a
sleep, a poll, or a generation call — never a delete-side event. -/
theorem POSTmain_events_shape (env : Env) :
    ∀ ev ∈ (POSTmain env).events,
      (∃ s, ev = Event.tempWrite s) ∨ (∃ s, ev = Event.filesUpload s) ∨
      (∃ ms, ev = Event.sleep ms) ∨ (∃ s, ev = Event.filesGet s) ∨
      (∃ tier m, ev = Event.generateContent tier m) := by
  intro ev hmem
  have hgem : ∀ (fl pr : MediaPart → Except ExtErr String) (media : MediaPart),
      ev ∈ (executeGeminiAnalysis fl pr media).2 →
      (∃ s, ev = Event.tempWrite s) ∨ (∃ s, ev = Event.filesUpload s) ∨
      (∃ ms, ev = Event.sleep ms) ∨ (∃ s, ev = Event.filesGet s) ∨
      (∃ tier m, ev = Event.generateContent tier m) := by
    intro fl pr media h
    rcases executeGeminiAnalysis_events fl pr media ev h with ⟨tier, h2⟩ | h2
    · exact Or.inr (Or.inr (Or.inr (Or.inr ⟨tier, media, h2⟩)))
    · exact Or.inr (Or.inr (Or.inl ⟨2000, h2⟩))
  rcases hval : validateAndExtractFile env.request with er | file
  · rw [POSTmain_validate_error env er hval] at hmem
    simp at hmem
  · cases file with
    | real f =>
      by_cases hroute : isBase64Route f.size
      · rw [POSTmain_inline_real env f hval hroute] at hmem
        simp only [List.mem_cons] at hmem
        rcases hmem with h | h
        · exact Or.inl ⟨_, h⟩
        · exact hgem _ _ _ h
      · rw [POSTmain_staged_real env f hval (by simpa using hroute)] at hmem
        simp only [List.mem_cons, List.mem_append] at hmem
        rcases hmem with h | h | h
        · exact Or.inl ⟨_, h⟩
        · rcases (uploadFileWithFilesAPI_events env.uploadResult env.getResult
              (mkTempPath env.tempDir env.fileId f.name)).1 _ h with h2 | h2 | ⟨s, h2⟩
          · exact Or.inr (Or.inl ⟨_, h2⟩)
          · exact Or.inr (Or.inr (Or.inl ⟨_, h2⟩))
          · exact Or.inr (Or.inr (Or.inr (Or.inl ⟨s, h2⟩)))
        · rcases hu : (uploadFileWithFilesAPI env.uploadResult env.getResult
            (mkTempPath env.tempDir env.fileId f.name)).1 with e2 | u2
          · rw [hu] at h
            simp at h
          · rw [hu] at h
            simp only at h
            unfold processWithFilesAPI at h
            split at h
            · exact hgem _ _ _ h
            · simp at h
    | extended name sz ty b64 =>
      by_cases hb : truthy b64
      · by_cases hroute : isBase64Route sz
        · rw [POSTmain_inline_pre env name sz ty b64 hval hroute hb] at hmem
          exact hgem _ _ _ hmem
        · rw [POSTmain_staged_ext env name sz ty b64 hval (by simpa using hroute)] at hmem
          simp at hmem
      · rw [POSTmain_ext_nob64 env name sz ty b64 hval (by simpa using hb)] at hmem
        simp at hmem

/-- The refactored try-block never emits delete-side events. -/
theorem POSTmain_no_delete_events (env : Env) :
    (POSTmain env).events.countP Event.isFilesDelete = 0 ∧
    (POSTmain env).events.countP Event.isTempStat = 0 ∧
    (POSTmain env).events.countP Event.isTempUnlink = 0 := by
  refine ⟨?_, ?_, ?_⟩ <;>
    apply countP_zero_of_events <;>
    intro e he <;>
    rcases POSTmain_events_shape env e he with
      ⟨s, h⟩ | ⟨s, h⟩ | ⟨ms, h⟩ | ⟨s, h⟩ | ⟨tier, m, h⟩ <;>
    subst h <;> rfl

/-- The refactored try-block writes the temp file exactly once when (and
only when) it records a temp path. -/
theorem POSTmain_tempWrite_count (env : Env) :
    (POSTmain env).events.countP Event.isTempWrite =
      (if (POSTmain env).tempFilePath.length = 0 then 0 else 1) := by
  have hgem : ∀ (fl pr : MediaPart → Except ExtErr String) (media : MediaPart),
      (executeGeminiAnalysis fl pr media).2.countP Event.isTempWrite = 0 :=
    fun fl pr media =>
      executeGeminiAnalysis_countP_zero fl pr media Event.isTempWrite
        (fun tier => rfl) rfl
  have hupl : ∀ p, (uploadFileWithFilesAPI env.uploadResult env.getResult p).2.countP
      Event.isTempWrite = 0 := by
    intro p
    apply countP_zero_of_events
    intro e he
    rcases (uploadFileWithFilesAPI_events env.uploadResult env.getResult p).1 _ he with
      h | h | ⟨s, h⟩ <;> subst h <;> rfl
  rcases hval : validateAndExtractFile env.request with er | file
  · rw [POSTmain_validate_error env er hval]
    simp
  · cases file with
    | real f =>
      by_cases hroute : isBase64Route f.size
      · rw [POSTmain_inline_real env f hval hroute]
        simp only [List.countP_cons]
        rw [if_neg (mkTempPath_length_ne_zero env.tempDir env.fileId f.name)]
        unfold processWithBase64
        rw [hgem]
        simp [Event.isTempWrite]
      · rw [POSTmain_staged_real env f hval (by simpa using hroute)]
        simp only [List.countP_cons, List.countP_append]
        rw [if_neg (mkTempPath_length_ne_zero env.tempDir env.fileId f.name)]
        rw [hupl]
        rcases hu : (uploadFileWithFilesAPI env.uploadResult env.getResult
          (mkTempPath env.tempDir env.fileId f.name)).1 with e2 | u2
        · simp [Event.isTempWrite]
        · simp only
          rw [processWithFilesAPI_countP_zero env.flashResult env.proResult u2
            Event.isTempWrite (fun tier media => rfl) rfl]
          simp [Event.isTempWrite]
    | extended name sz ty b64 =>
      by_cases hb : truthy b64
      · by_cases hroute : isBase64Route sz
        · rw [POSTmain_inline_pre env name sz ty b64 hval hroute hb]
          simp only
          unfold processWithPreEncodedBase64
          rw [hgem]
          simp
        · rw [POSTmain_staged_ext env name sz ty b64 hval (by simpa using hroute)]
          simp
      · rw [POSTmain_ext_nob64 env name sz ty b64 hval (by simpa using hb)]
        simp

/-- Only the staged branch with a fully successful upload-and-wait step
records a staged handle, and there the temp path is nonempty. -/
theorem POSTmain_recorded_temp (env : Env) (u : UploadedFile)
    (hup : (POSTmain env).uploadedFileForDeletion = some u) :
    ¬ (POSTmain env).tempFilePath.length = 0 := by
  rcases hval : validateAndExtractFile env.request with er | file
  · rw [POSTmain_validate_error env er hval] at hup
    simp at hup
  · cases file with
    | real f =>
      by_cases hroute : isBase64Route f.size
      · rw [POSTmain_inline_real env f hval hroute] at hup
        simp at hup
      · rw [POSTmain_staged_real env f hval (by simpa using hroute)]
        exact mkTempPath_length_ne_zero env.tempDir env.fileId f.name
    | extended name sz ty b64 =>
      by_cases hb : truthy b64
      · by_cases hroute : isBase64Route sz
        · rw [POSTmain_inline_pre env name sz ty b64 hval hroute hb] at hup
          simp at hup
        · rw [POSTmain_staged_ext env name sz ty b64 hval (by simpa using hroute)] at hup
          simp at hup
      · rw [POSTmain_ext_nob64 env name sz ty b64 hval (by simpa using hb)] at hup
        simp at hup

/-- Cleanup with no staged handle is just the local step. -/
theorem cleanup_none (p : String) (d : Except ExtErr Unit) (tex : Bool) :
    cleanup p none d tex = cleanupLocal p tex := rfl

/-- Cleanup with an unnamed staged handle is just the local step. -/
theorem cleanup_some_noname (p : String) (u : UploadedFile)
    (d : Except ExtErr Unit) (tex : Bool) (hn : truthy u.name = false) :
    cleanup p (some u) d tex = cleanupLocal p tex := by
  simp [cleanup, hn]

/-- A throwing remote delete is caught by the single catch, skipping the
local step entirely. -/
theorem cleanup_some_error (p : String) (u : UploadedFile) (e : ExtErr)
    (tex : Bool) (hn : truthy u.name = true) :
    cleanup p (some u) (.error e) tex = [.filesDelete (u.name.getD "")] := by
  simp [cleanup, hn]

/-- A successful remote delete is followed by the local step. -/
theorem cleanup_some_ok (p : String) (u : UploadedFile) (x : Unit) (tex : Bool)
    (hn : truthy u.name = true) :
    cleanup p (some u) (.ok x) tex =
      .filesDelete (u.name.getD "") :: cleanupLocal p tex := by
  simp [cleanup, hn]

/-- Counts of the local cleanup step. -/
theorem cleanupLocal_counts (p : String) (tex : Bool) :
    (cleanupLocal p tex).countP Event.isFilesDelete = 0 ∧
    (cleanupLocal p tex).countP Event.isTempStat = (if p.length = 0 then 0 else 1) ∧
    (cleanupLocal p tex).countP Event.isTempWrite = 0 := by
  unfold cleanupLocal
  by_cases h0 : p.length = 0
  · simp [h0]
  · by_cases htex : tex = true <;>
      simp [h0, htex, Event.isFilesDelete, Event.isTempStat, Event.isTempWrite]

/-- The try-block outcome does not depend on the cleanup oracles. -/
theorem POSTmain_cleanup_frame (env : Env) (d : Except ExtErr Unit)
    (tex : Bool) (ul : Except ExtErr Unit) :
    POSTmain { env with
      filesDeleteResult := d
      tempExists := tex
      unlinkResult := ul } = POSTmain env := rfl

/-- Counterexample for C1: the concrete staged run whose remote
processing never reaches ACTIVE creates a staged file (the upload oracle
succeeds and the upload call is performed), yet no remote delete of it is
ever attempted — the refactored handler records the staged handle only
after the wait step, which here throws. -/
theorem C1_counterexample :
    envPollTimeout.uploadResult = .ok processingFile ∧
    (POST envPollTimeout).2.countP Event.isUpload = 1 ∧
    (POST envPollTimeout).2.countP Event.isFilesDelete = 0 ∧
    (POST envPollTimeout).1.status = 500 :=
  ⟨rfl, by decide, by decide, by decide⟩

/-- Claim C1 (amended): cleanup outcomes never change the primary
response; the temp file is written exactly once when a temp path is
recorded; a remote delete of the staged file is attempted exactly once
when (and only when) a staged handle with a truthy name was recorded,
which happens only after upload AND wait both succeeded; the local delete
step is entered exactly once per recorded temp path unless a recorded
remote delete throws first, in which case it is skipped; cleanup errors
are caught and never re-raised (cleanup returns normally in all cases). -/
theorem C1_cleanup_discipline_amended :
    (∀ (env : Env) (d : Except ExtErr Unit) (tex : Bool) (ul : Except ExtErr Unit),
      (POST { env with
        filesDeleteResult := d
        tempExists := tex
        unlinkResult := ul }).1 = (POST env).1) ∧
    (∀ env : Env, truthy env.apiKey = true →
      (POST env).2.countP Event.isFilesDelete =
        (match (POSTmain env).uploadedFileForDeletion with
         | some u => if truthy u.name then 1 else 0
         | none => 0)) ∧
    (∀ env : Env, truthy env.apiKey = true →
      (POST env).2.countP Event.isTempWrite =
        (if (POSTmain env).tempFilePath.length = 0 then 0 else 1)) ∧
    (∀ env : Env, truthy env.apiKey = true →
      ((POSTmain env).uploadedFileForDeletion = none ∨
        (∃ u, (POSTmain env).uploadedFileForDeletion = some u ∧
          truthy u.name = false) ∨
        (∃ u x, (POSTmain env).uploadedFileForDeletion = some u ∧
          truthy u.name = true ∧ env.filesDeleteResult = .ok x)) →
      (POST env).2.countP Event.isTempStat =
        (if (POSTmain env).tempFilePath.length = 0 then 0 else 1)) ∧
    (∀ (env : Env) (u : UploadedFile) (e : ExtErr), truthy env.apiKey = true →
      (POSTmain env).uploadedFileForDeletion = some u → truthy u.name = true →
      env.filesDeleteResult = .error e →
      (POST env).2.countP Event.isTempStat = 0) := by
  refine ⟨?_, ?_, ?_, ?_, ?_⟩
  · intro env d tex ul
    by_cases hkey : truthy env.apiKey
    · have hkey2 : truthy ({ env with
          filesDeleteResult := d
          tempExists := tex
          unlinkResult := ul } : Env).apiKey = true := hkey
      rw [POST_response env hkey, POST_response _ hkey2, POSTmain_cleanup_frame]
    · have hkey2 : truthy env.apiKey = false := by simpa using hkey
      simp [POST, hkey2]
  · intro env hkey
    rw [POST_trace env hkey, List.countP_append,
      (POSTmain_no_delete_events env).1]
    rcases hup : (POSTmain env).uploadedFileForDeletion with _ | u
    · rw [cleanup_none, (cleanupLocal_counts _ _).1]
    · by_cases hn : truthy u.name
      · rcases hd : env.filesDeleteResult with e | x
        · rw [cleanup_some_error _ _ _ _ hn]
          simp [hn, Event.isFilesDelete]
        · rw [cleanup_some_ok _ _ _ _ hn]
          simp only [List.countP_cons, (cleanupLocal_counts _ _).1]
          simp [hn, Event.isFilesDelete]
      · have hn2 : truthy u.name = false := by simpa using hn
        rw [cleanup_some_noname _ _ _ _ hn2, (cleanupLocal_counts _ _).1]
        simp [hn2]
  · intro env hkey
    rw [POST_trace env hkey, List.countP_append, POSTmain_tempWrite_count]
    rw [cleanup_countP_zero _ _ _ _ Event.isTempWrite
      (fun s => rfl) (fun s => rfl) (fun s => rfl)]
    simp
  · intro env hkey hcase
    rw [POST_trace env hkey, List.countP_append,
      (POSTmain_no_delete_events env).2.1]
    rcases hcase with hup | ⟨u, hup, hn⟩ | ⟨u, x, hup, hn, hd⟩
    · rw [hup, cleanup_none, (cleanupLocal_counts _ _).2.1]
      simp
    · rw [hup, cleanup_some_noname _ _ _ _ hn, (cleanupLocal_counts _ _).2.1]
      simp
    · rw [hup, hd, cleanup_some_ok _ _ _ _ hn]
      simp only [List.countP_cons, (cleanupLocal_counts _ _).2.1]
      simp [Event.isTempStat]
  · intro env u e hkey hup hn hd
    rw [POST_trace env hkey, List.countP_append,
      (POSTmain_no_delete_events env).2.1]
    rw [hup, hd, cleanup_some_error _ _ _ _ hn]
    simp [Event.isTempStat]

/-- Witness for C1 (amended) at concrete inputs: changing the cleanup
oracles leaves the response unchanged; the successful staged run attempts
exactly one remote delete; the staged run whose remote delete throws
never enters the local delete step. -/
theorem C1_cleanup_discipline_amended_witness :
    (POST { baseEnv with
      filesDeleteResult := Except.error "boom"
      tempExists := false
      unlinkResult := Except.error "boom2" }).1 = (POST baseEnv).1 ∧
    (POST envStagedOk).2.countP Event.isFilesDelete = 1 ∧
    (POST envStagedDeleteFails).2.countP Event.isTempStat = 0 := by
  refine ⟨C1_cleanup_discipline_amended.1 baseEnv (.error "boom") false (.error "boom2"),
    ?_, ?_⟩
  · rw [C1_cleanup_discipline_amended.2.1 envStagedOk (by decide)]
    decide
  · exact C1_cleanup_discipline_amended.2.2.2.2 envStagedDeleteFails activeFile
      "delete failed" (by decide) (by decide) (by decide) rfl

/-- Claim C9: the remote staged-file delete and the local temp-file
delete run in sequence inside one try/catch, so whenever the remote
delete throws, the local deletion is not attempted: cleanup performs only
the remote delete call, and in the full handler the temp file is written
once but never stat-checked or unlinked. -/
theorem C9_cleanup_single_catch :
    (∀ (p : String) (u : UploadedFile) (e : ExtErr) (tex : Bool),
      truthy u.name = true →
      cleanup p (some u) (.error e) tex = [.filesDelete (u.name.getD "")]) ∧
    (∀ (env : Env) (u : UploadedFile) (e : ExtErr),
      truthy env.apiKey = true →
      (POSTmain env).uploadedFileForDeletion = some u →
      truthy u.name = true →
      env.filesDeleteResult = .error e →
      (POST env).2.countP Event.isTempWrite = 1 ∧
      (POST env).2.countP Event.isTempStat = 0 ∧
      (POST env).2.countP Event.isTempUnlink = 0) := by
  constructor
  · intro p u e tex hn
    exact cleanup_some_error p u e tex hn
  · intro env u e hkey hup hn hd
    have htemp := POSTmain_recorded_temp env u hup
    refine ⟨?_, ?_, ?_⟩ <;>
      rw [POST_trace env hkey, List.countP_append] <;>
      rw [hup, hd, cleanup_some_error _ _ _ _ hn]
    · rw [POSTmain_tempWrite_count, if_neg htemp]
      simp [Event.isTempWrite]
    · rw [(POSTmain_no_delete_events env).2.1]
      simp [Event.isTempStat]
    · rw [(POSTmain_no_delete_events env).2.2]
      simp [Event.isTempUnlink]

/-- Witness for C9 at a concrete input: the staged run whose remote
delete throws keeps its temp file — written once, never stat-checked,
never unlinked. -/
theorem C9_cleanup_single_catch_witness :
    (POST envStagedDeleteFails).2.countP Event.isTempWrite = 1 ∧
    (POST envStagedDeleteFails).2.countP Event.isTempStat = 0 ∧
    (POST envStagedDeleteFails).2.countP Event.isTempUnlink = 0 :=
  C9_cleanup_single_catch.2 envStagedDeleteFails activeFile "delete failed"
    (by decide) (by decide) (by decide) rfl

end GolfAnalyze
